import Mathlib

/-!
Verification of the web-client telemetry pipeline.

This file gives a shallow embedding, in Lean 4, of the core logic of the
repository: the WebSocket connection manager (`src/services/websocket.ts`),
the sensor protocol engine (`src/services/sensorParser.ts`), the telemetry
store (`src/stores/telemetryStore.ts`), the task tracker
(`src/stores/hubStore.ts` and the command service), and the chart
merge/separate view logic (`src/pages/LiveTelemetry.tsx`).

Browser/JS natives (the regex engine, `parseFloat`, `atob`, `TextDecoder`,
`toLocaleTimeString`, the HTTP layer) are modelled as explicit parameters;
everything written in the repository itself is translated directly.
-/

namespace WebClient

/-! ### Generic association-list helpers (model of JS `Map` with string keys,
which preserves insertion order, updates in place on `set`, and removes on
`delete`). -/

def assocLookup {α : Type} (m : List (String × α)) (k : String) : Option α :=
  match m with
  | [] => none
  | (k', v) :: rest => if k' = k then some v else assocLookup rest k

def assocSet {α : Type} (k : String) (v : α) : List (String × α) → List (String × α)
  | [] => [(k, v)]
  | (k', v') :: rest => if k' = k then (k, v) :: rest else (k', v') :: assocSet k v rest

def assocErase {α : Type} (k : String) : List (String × α) → List (String × α)
  | [] => []
  | (k', v') :: rest => if k' = k then rest else (k', v') :: assocErase k rest

theorem assocLookup_set {α : Type} (k : String) (v : α) (m : List (String × α)) :
    assocLookup (assocSet k v m) k = some v := by
  induction m with
  | nil => simp [assocSet, assocLookup]
  | cons hd tl ih =>
    obtain ⟨k', v'⟩ := hd
    by_cases h : k' = k
    · simp [assocSet, assocLookup, h]
    · simp [assocSet, assocLookup, h, ih]

theorem assocErase_set {α : Type} (k : String) (v : α) (m : List (String × α))
    (h : assocLookup m k = none) : assocErase k (assocSet k v m) = m := by
  induction m with
  | nil => simp [assocSet, assocErase]
  | cons hd tl ih =>
    obtain ⟨k', v'⟩ := hd
    by_cases hk : k' = k
    · simp [assocLookup, hk] at h
    · simp [assocLookup, hk] at h
      simp [assocSet, assocErase, hk, ih h]

/-! ### Connection manager (`src/services/websocket.ts`, `WebSocketService`) -/

/-- A device subscription intent: one serial channel on one hub. -/
structure DeviceSubscription where
  hubId : String
  portId : String
deriving DecidableEq, Repr

/-- The readyState of the underlying browser WebSocket. -/
inductive WsReadyState
  | connecting
  | opened
  | closing
  | closed
deriving DecidableEq, Repr

/-- The mutable fields of the `WebSocketService` singleton.  `ws = none`
models `this.ws === null`; `reconnectTimeout = some d` models a pending
`setTimeout` handle scheduled with delay `d` ms (cleared handles do not run,
so `none` means no reconnect callback can fire). -/
structure WsState where
  ws : Option WsReadyState
  reconnectTimeout : Option Nat
  reconnectAttempts : Nat
  isIntentionallyClosed : Bool
  token : Option String
  pendingSubscriptions : List DeviceSubscription
deriving DecidableEq, Repr

def maxReconnectAttempts : Nat := 10

def baseReconnectDelay : Nat := 1000

/-- Initial field values of the service (`new WebSocketService()`). -/
def initialWsState : WsState :=
  { ws := none
    reconnectTimeout := none
    reconnectAttempts := 0
    isIntentionallyClosed := false
    token := none
    pendingSubscriptions := [] }

/-- Whether `this.ws?.readyState === WebSocket.OPEN`. -/
def wsOpen (s : WsState) : Bool := s.ws = some WsReadyState.opened

/-- The `scheduleReconnect` method.  Returns the updated state together with
the delay passed to `setTimeout`, when a timer was scheduled. -/
def scheduleReconnect (s : WsState) : WsState × Option Nat :=
  if s.isIntentionallyClosed then (s, none)
  else if maxReconnectAttempts ≤ s.reconnectAttempts then (s, none)
  else
    let delay := min (baseReconnectDelay * 2 ^ s.reconnectAttempts) 30000
    ({ s with
        reconnectAttempts := s.reconnectAttempts + 1
        reconnectTimeout := some delay },
      some delay)

/-- The `disconnect` method: marks the closure intentional, clears any pending
reconnect timer (`clearTimeout`), and drops the socket. -/
def disconnect (s : WsState) : WsState :=
  { s with
      isIntentionallyClosed := true
      reconnectTimeout := none
      ws := none }

/-- Whether a reconnect callback is still pending; a timer whose handle was
passed to `clearTimeout` (and hence removed from the state) never runs. -/
def pendingReconnectTimer (s : WsState) : Bool := s.reconnectTimeout.isSome

/-- Iterate the state component of `scheduleReconnect` (one unintentional
close after another, each before its timer fires). -/
def schedIter : Nat → WsState → WsState
  | 0, s => s
  | n + 1, s => schedIter n (scheduleReconnect s).1

/-- JS truthiness of an optional string (`undefined` and `""` are falsy). -/
def strTruthy : Option String → Bool
  | some s => !s.isEmpty
  | none => false

/-- The two overloads of `subscribe`/`unsubscribe`: a `(hubId, portId)` string
pair or an array of subscriptions.  `arg2` is the optional second argument. -/
inductive SubscribeArg1
  | strArg (hubId : String)
  | arrArg (subs : List DeviceSubscription)
deriving Repr

/-- The argument-normalisation prefix shared by `subscribe` and `unsubscribe`:
`typeof arg1 === 'string' && arg2` selects the pair form (note `arg2` must be
truthy, so an empty `portId` falls through), otherwise `Array.isArray(arg1)`
selects the batch form, otherwise the call is invalid. -/
def argSubscriptions : SubscribeArg1 → Option String → Option (List DeviceSubscription)
  | SubscribeArg1.strArg h, arg2 =>
    if strTruthy arg2 then some [⟨h, arg2.getD ""⟩] else none
  | SubscribeArg1.arrArg subs, _ => some subs

/-- An outbound socket message (`{type, subscriptions}`). -/
structure OutMessage where
  type : String
  subscriptions : List DeviceSubscription
deriving DecidableEq, Repr

/-- The observable effect of one `subscribe`/`unsubscribe` call: the new
service state, the messages passed to `this.send`, and whether the call
invoked `this.connect` (the opportunistic connect while queuing). -/
structure CallEffect where
  state : WsState
  sent : List OutMessage
  connectAttempted : Bool
deriving Repr

/-- The dedupe-and-enqueue loop of `subscribe` in the not-open branch: each
incoming intent is appended only if no queued intent has the same
`hubId`/`portId`. -/
def enqueueDedup (pending : List DeviceSubscription) (subs : List DeviceSubscription) :
    List DeviceSubscription :=
  subs.foldl
    (fun acc sub =>
      if acc.any (fun x => x.hubId == sub.hubId && x.portId == sub.portId) then acc
      else acc ++ [sub])
    pending

/-- The `subscribe` method.  `storedToken` models
`localStorage.getItem('auth_token')`.  When the socket is open the message is
sent immediately; otherwise the intents are deduplicated into the pending
queue and a connect is attempted when a token is available. -/
def subscribeCall (storedToken : Option String) (s : WsState)
    (arg1 : SubscribeArg1) (arg2 : Option String) : CallEffect :=
  match argSubscriptions arg1 arg2 with
  | none => ⟨s, [], false⟩
  | some subs =>
    if wsOpen s then
      ⟨s, [⟨"subscribe", subs⟩], false⟩
    else
      let newPending := enqueueDedup s.pendingSubscriptions subs
      let tok := if strTruthy s.token then s.token else storedToken
      ⟨{ s with pendingSubscriptions := newPending }, [], strTruthy tok⟩

/-- The `unsubscribe` method: when the socket is open the message is sent;
otherwise matching intents are filtered out of the pending queue. -/
def unsubscribeCall (s : WsState) (arg1 : SubscribeArg1) (arg2 : Option String) :
    CallEffect :=
  match argSubscriptions arg1 arg2 with
  | none => ⟨s, [], false⟩
  | some subs =>
    if wsOpen s then
      ⟨s, [⟨"unsubscribe", subs⟩], false⟩
    else
      ⟨{ s with
          pendingSubscriptions :=
            s.pendingSubscriptions.filter
              (fun x => !(subs.any (fun u => u.hubId == x.hubId && u.portId == x.portId))) },
        [], false⟩

/-- The `onopen` handler: resets the reconnect counter and flushes the queued
subscriptions as one batched message. -/
def onOpenEvent (s : WsState) : WsState × List OutMessage :=
  let s1 := { s with ws := some WsReadyState.opened, reconnectAttempts := 0 }
  if s1.pendingSubscriptions.isEmpty then (s1, [])
  else
    ({ s1 with pendingSubscriptions := [] },
      [⟨"subscribe", s1.pendingSubscriptions⟩])

/-- The `hasPendingSubscription` query. -/
def hasPendingSubscription (s : WsState) (hubId portId : String) : Bool :=
  s.pendingSubscriptions.any (fun x => x.hubId == hubId && x.portId == portId)

theorem schedIter_attempts (k : Nat) (s : WsState)
    (hc : s.isIntentionallyClosed = false)
    (hk : s.reconnectAttempts + k ≤ maxReconnectAttempts) :
    (schedIter k s).reconnectAttempts = s.reconnectAttempts + k ∧
      (schedIter k s).isIntentionallyClosed = false := by
  induction k generalizing s with
  | zero => exact ⟨rfl, hc⟩
  | succ n ih =>
    have hlt : s.reconnectAttempts < maxReconnectAttempts := by omega
    have hstep : (scheduleReconnect s).1 =
        { s with
            reconnectAttempts := s.reconnectAttempts + 1
            reconnectTimeout :=
              some (min (baseReconnectDelay * 2 ^ s.reconnectAttempts) 30000) } := by
      simp [scheduleReconnect, hc, Nat.not_le.mpr hlt]
    have h := ih (scheduleReconnect s).1 (by rw [hstep]; exact hc)
      (by rw [hstep]; simp; omega)
    refine ⟨?_, h.2⟩
    rw [schedIter, h.1, hstep]
    simp; omega

/-- C2: in a reconnect sequence started with the attempt counter at 0, the
delay passed to `setTimeout` before the Nth reconnect attempt is
`min(1000 * 2^(N-1), 30000)` ms; once the attempt counter has reached the
maximum, `scheduleReconnect` schedules nothing and leaves the state unchanged;
and after `disconnect()` the pending reconnect timer is cleared (so a
scheduled but unfired callback never runs) and further scheduling is
suppressed. -/
theorem reconnect_backoff_and_cancellation (s0 s : WsState) (N : Nat)
    (h0 : s0.reconnectAttempts = 0) (hc : s0.isIntentionallyClosed = false)
    (h1 : 1 ≤ N) (hN : N ≤ maxReconnectAttempts) :
    (scheduleReconnect (schedIter (N - 1) s0)).2
        = some (min (1000 * 2 ^ (N - 1)) 30000)
    ∧ (maxReconnectAttempts ≤ s.reconnectAttempts → scheduleReconnect s = (s, none))
    ∧ pendingReconnectTimer (disconnect s) = false
    ∧ (scheduleReconnect (disconnect s)).2 = none := by
  refine ⟨?_, ?_, ?_, ?_⟩
  · have h := schedIter_attempts (N - 1) s0 hc (by omega)
    have hlt' : ¬ (maxReconnectAttempts ≤ N - 1) := by omega
    simp [scheduleReconnect, h.2, h.1, h0, hlt', baseReconnectDelay]
  · intro h
    cases hcl : s.isIntentionallyClosed <;> simp [scheduleReconnect, hcl, h]
  · simp [pendingReconnectTimer, disconnect]
  · simp [scheduleReconnect, disconnect]

theorem reconnect_backoff_and_cancellation_witness :
    (scheduleReconnect (schedIter (3 - 1) initialWsState)).2
        = some (min (1000 * 2 ^ (3 - 1)) 30000)
    ∧ (maxReconnectAttempts ≤ initialWsState.reconnectAttempts →
        scheduleReconnect initialWsState = (initialWsState, none))
    ∧ pendingReconnectTimer (disconnect initialWsState) = false
    ∧ (scheduleReconnect (disconnect initialWsState)).2 = none :=
  reconnect_backoff_and_cancellation initialWsState initialWsState 3 rfl rfl
    (by decide) (by decide)

/-- C10: a `subscribe` or `unsubscribe` call whose `portId` argument is the
empty string (falsy in JS) fails the `typeof arg1 === 'string' && arg2` test
and, since a string is not an array, falls into the invalid-arguments branch:
the state (in particular the pending queue) is unchanged, nothing is sent on
the socket, and no connect attempt is triggered. -/
theorem empty_portId_rejected (storedToken : Option String) (s : WsState)
    (hubId : String) :
    (subscribeCall storedToken s (SubscribeArg1.strArg hubId) (some "")).state = s
    ∧ (subscribeCall storedToken s (SubscribeArg1.strArg hubId) (some "")).sent = []
    ∧ (subscribeCall storedToken s (SubscribeArg1.strArg hubId)
        (some "")).connectAttempted = false
    ∧ (unsubscribeCall s (SubscribeArg1.strArg hubId) (some "")).state = s
    ∧ (unsubscribeCall s (SubscribeArg1.strArg hubId) (some "")).sent = []
    ∧ (unsubscribeCall s (SubscribeArg1.strArg hubId)
        (some "")).connectAttempted = false := by
  exact ⟨rfl, rfl, rfl, rfl, rfl, rfl⟩

/-! ### The pending-subscription queue invariant (C3) -/

/-- Two intents target the same serial channel, the comparison used by the
dedupe check in `subscribe` and the removal filter in `unsubscribe`. -/
def sameChannel (a b : DeviceSubscription) : Prop :=
  a.hubId = b.hubId ∧ a.portId = b.portId

/-- No two queued intents target the same `hubId`/`portId`. -/
def NoDupIntents (l : List DeviceSubscription) : Prop :=
  l.Pairwise (fun a b => ¬ sameChannel a b)

theorem sameChannel_iff_eq (a b : DeviceSubscription) : sameChannel a b ↔ a = b := by
  cases a; cases b
  simp [sameChannel, DeviceSubscription.mk.injEq]

theorem noDupIntents_iff_nodup (l : List DeviceSubscription) :
    NoDupIntents l ↔ l.Nodup := by
  unfold NoDupIntents List.Nodup
  constructor <;> intro h <;> refine h.imp ?_
  · intro a b hab hEq
    exact hab ((sameChannel_iff_eq a b).mpr hEq)
  · intro a b hab hSc
    exact hab ((sameChannel_iff_eq a b).mp hSc)

/-- The Boolean key-match used in `subscribe`, `unsubscribe` and
`hasPendingSubscription` decides `sameChannel`. -/
theorem channel_match_eq (sub x : DeviceSubscription) :
    (x.hubId == sub.hubId && x.portId == sub.portId) = true ↔ x = sub := by
  cases sub; cases x
  simp [DeviceSubscription.mk.injEq]

theorem enqueueDedup_cons (pending : List DeviceSubscription)
    (sub : DeviceSubscription) (rest : List DeviceSubscription) :
    enqueueDedup pending (sub :: rest) =
      enqueueDedup
        (if pending.any (fun x => x.hubId == sub.hubId && x.portId == sub.portId)
          then pending else pending ++ [sub]) rest := rfl

theorem enqueueDedup_nodup (subs pending : List DeviceSubscription)
    (h : NoDupIntents pending) : NoDupIntents (enqueueDedup pending subs) := by
  rw [noDupIntents_iff_nodup] at h ⊢
  induction subs generalizing pending with
  | nil => exact h
  | cons sub rest ih =>
    rw [enqueueDedup_cons]
    by_cases hmem : pending.any
        (fun x => x.hubId == sub.hubId && x.portId == sub.portId) = true
    · rw [if_pos hmem]
      exact ih pending h
    · rw [if_neg hmem]
      have hnotin : sub ∉ pending := by
        intro hin
        exact hmem (List.any_eq_true.mpr ⟨sub, hin, by simp⟩)
      have hnd : (pending ++ [sub]).Nodup := by
        simp [List.nodup_append, hnotin, h]
      exact ih (pending ++ [sub]) hnd

/-- Queue-affecting events of the connection manager: `subscribe`,
`unsubscribe`, `disconnect`, and the socket `onopen` flush.  (`connect`
itself never touches the queue; the flush happens in its `onopen`
handler.) -/
inductive WsQueueOp
  | subscribeOp (storedToken : Option String) (arg1 : SubscribeArg1) (arg2 : Option String)
  | unsubscribeOp (arg1 : SubscribeArg1) (arg2 : Option String)
  | disconnectOp
  | openOp

def applyQueueOp (s : WsState) : WsQueueOp → WsState
  | WsQueueOp.subscribeOp tok a1 a2 => (subscribeCall tok s a1 a2).state
  | WsQueueOp.unsubscribeOp a1 a2 => (unsubscribeCall s a1 a2).state
  | WsQueueOp.disconnectOp => disconnect s
  | WsQueueOp.openOp => (onOpenEvent s).1

def applyQueueOps (s : WsState) : List WsQueueOp → WsState
  | [] => s
  | op :: rest => applyQueueOps (applyQueueOp s op) rest

theorem applyQueueOp_nodup (s : WsState) (op : WsQueueOp)
    (h : NoDupIntents s.pendingSubscriptions) :
    NoDupIntents (applyQueueOp s op).pendingSubscriptions := by
  cases op with
  | subscribeOp tok a1 a2 =>
    show NoDupIntents (subscribeCall tok s a1 a2).state.pendingSubscriptions
    unfold subscribeCall
    cases argSubscriptions a1 a2 with
    | none => exact h
    | some subs =>
      by_cases hop : wsOpen s = true
      · simpa [hop] using h
      · simp only [Bool.not_eq_true] at hop
        simpa [hop] using enqueueDedup_nodup subs s.pendingSubscriptions h
  | unsubscribeOp a1 a2 =>
    show NoDupIntents (unsubscribeCall s a1 a2).state.pendingSubscriptions
    unfold unsubscribeCall
    cases argSubscriptions a1 a2 with
    | none => exact h
    | some subs =>
      by_cases hop : wsOpen s = true
      · simpa [hop] using h
      · simp only [Bool.not_eq_true] at hop
        simp only [hop]
        rw [noDupIntents_iff_nodup] at h ⊢
        exact h.filter _
  | disconnectOp => exact h
  | openOp =>
    show NoDupIntents (onOpenEvent s).1.pendingSubscriptions
    unfold onOpenEvent
    by_cases he : s.pendingSubscriptions.isEmpty = true
    · simpa [he] using h
    · simp [he, NoDupIntents]

theorem applyQueueOps_nodup (ops : List WsQueueOp) (s : WsState)
    (h : NoDupIntents s.pendingSubscriptions) :
    NoDupIntents (applyQueueOps s ops).pendingSubscriptions := by
  induction ops generalizing s with
  | nil => exact h
  | cons op rest ih => exact ih _ (applyQueueOp_nodup s op h)

/-- Number of queued intents for a given channel, counted with the same
Boolean key match the service uses. -/
def countMatching (s : WsState) (hubId portId : String) : Nat :=
  s.pendingSubscriptions.countP (fun x => x.hubId == hubId && x.portId == portId)

theorem chanMatch_eq_beq (e x : DeviceSubscription) :
    (x.hubId == e.hubId && x.portId == e.portId) = (x == e) := by
  rw [← Bool.coe_iff_coe, beq_iff_eq]
  exact channel_match_eq e x

theorem countP_channel (l : List DeviceSubscription) (e : DeviceSubscription) :
    l.countP (fun x => x.hubId == e.hubId && x.portId == e.portId) = l.count e := by
  unfold List.count
  congr 1
  funext x
  exact chanMatch_eq_beq e x

theorem enqueueDedup_single_count (pending : List DeviceSubscription)
    (e : DeviceSubscription) (hnd : NoDupIntents pending) :
    (enqueueDedup pending [e]).count e = 1 ∧
      NoDupIntents (enqueueDedup pending [e]) := by
  have hstep : enqueueDedup pending [e] =
      if pending.any (fun x => x.hubId == e.hubId && x.portId == e.portId) then pending
      else pending ++ [e] := rfl
  have hnd' := (noDupIntents_iff_nodup pending).mp hnd
  by_cases hmem : pending.any
      (fun x => x.hubId == e.hubId && x.portId == e.portId) = true
  · have hin : e ∈ pending := by
      obtain ⟨x, hx, hxe⟩ := List.any_eq_true.mp hmem
      rwa [(channel_match_eq e x).mp hxe] at hx
    have h1 : pending.count e = 1 := by
      have hle := List.nodup_iff_count_le_one.mp hnd' e
      have hge := List.count_pos_iff.mpr hin
      omega
    rw [hstep, if_pos hmem]
    exact ⟨h1, hnd⟩
  · have hout : e ∉ pending := by
      intro hin
      exact hmem (List.any_eq_true.mpr ⟨e, hin, by simp⟩)
    rw [hstep, if_neg hmem]
    constructor
    · rw [List.count_append, List.count_eq_zero.mpr hout]
      simp
    · rw [noDupIntents_iff_nodup]
      simp [List.nodup_append, hout, hnd']

/-- C3: every state reachable from the initial service state through
subscribe/unsubscribe/disconnect/open events has a pending queue with no two
intents for the same `hubId`/`portId`; and calling `subscribe` twice for the
same channel while the socket is not open leaves exactly one queued intent
for that channel. -/
theorem pending_queue_dedup (ops : List WsQueueOp) (tok1 tok2 : Option String)
    (s : WsState) (hubId portId : String)
    (hopen : wsOpen s = false) (hp : portId ≠ "")
    (hnd : NoDupIntents s.pendingSubscriptions) :
    NoDupIntents (applyQueueOps initialWsState ops).pendingSubscriptions
    ∧ countMatching
        (subscribeCall tok2
          (subscribeCall tok1 s (SubscribeArg1.strArg hubId) (some portId)).state
          (SubscribeArg1.strArg hubId) (some portId)).state hubId portId = 1 := by
  constructor
  · exact applyQueueOps_nodup ops initialWsState (by simp [NoDupIntents, initialWsState])
  · have hargs : argSubscriptions (SubscribeArg1.strArg hubId) (some portId) =
        some [(⟨hubId, portId⟩ : DeviceSubscription)] := by
      simp [argSubscriptions, strTruthy, String.isEmpty_iff, hp]
    have hsub : ∀ (tk : Option String) (t : WsState), wsOpen t = false →
        (subscribeCall tk t (SubscribeArg1.strArg hubId)
            (some portId)).state.pendingSubscriptions =
          enqueueDedup t.pendingSubscriptions [⟨hubId, portId⟩] ∧
        wsOpen (subscribeCall tk t (SubscribeArg1.strArg hubId)
            (some portId)).state = false := by
      intro tk t ht
      unfold subscribeCall
      rw [hargs]
      simp only [ht, Bool.false_eq_true, if_false]
      exact ⟨trivial, ht⟩
    have hfirst := hsub tok1 s hopen
    have h1 := enqueueDedup_single_count s.pendingSubscriptions ⟨hubId, portId⟩ hnd
    have hsecond := hsub tok2 _ hfirst.2
    unfold countMatching
    rw [hsecond.1, hfirst.1, countP_channel _ ⟨hubId, portId⟩]
    exact (enqueueDedup_single_count _ ⟨hubId, portId⟩ h1.2).1

theorem pending_queue_dedup_witness :
    NoDupIntents (applyQueueOps initialWsState
      [WsQueueOp.subscribeOp none (SubscribeArg1.strArg "hub-1") (some "p1")]).pendingSubscriptions
    ∧ countMatching
        (subscribeCall none
          (subscribeCall none initialWsState (SubscribeArg1.strArg "hub-1")
            (some "p1")).state
          (SubscribeArg1.strArg "hub-1") (some "p1")).state "hub-1" "p1" = 1 :=
  pending_queue_dedup
    [WsQueueOp.subscribeOp none (SubscribeArg1.strArg "hub-1") (some "p1")]
    none none initialWsState "hub-1" "p1" rfl (by decide)
    (by simp [NoDupIntents, initialWsState])

/-! ### Protocol engine (`src/services/sensorParser.ts`)

The JS natives (the regex engine, `parseFloat`, `JSON.parse`, `atob`,
`TextDecoder`, `toLocaleTimeString`) are collected in a `JsEnv` parameter; a
concrete instance `tempEnv` models them for the spec's calibration pattern
`temp=([\d.]+)`. -/

inductive SensorFormat
  | keyValue
  | csv
  | json
deriving DecidableEq, Repr

structure SensorField where
  name : String
  unit : String
  color : String
  captureGroup : Nat
deriving DecidableEq, Repr

structure SensorMapping where
  id : String
  name : String
  format : SensorFormat
  pattern : String
  fields : List SensorField
deriving DecidableEq, Repr

/-- The JS natives the parser calls out to.
`regexValid p` models whether `new RegExp(p, "i")` compiles;
`execRegex p line` models `new RegExp(p, "i").exec(line)` (the match array,
index 0 the full match, a non-participating group `none`);
`parseFloat` returns `none` for NaN;
`jsonNumbers line` models `JSON.parse` followed by keeping the numeric-valued
top-level entries in order (`none` when `JSON.parse` throws);
`decodeB64` models `atob` plus UTF-8 `TextDecoder` (`none` when `atob`
throws);
`timeString` models `new Date(ts).toLocaleTimeString()`. -/
structure JsEnv where
  regexValid : String → Bool
  execRegex : String → String → Option (List (Option String))
  parseFloat : String → Option Rat
  jsonNumbers : String → Option (List (String × Rat))
  decodeB64 : String → Option (List Nat × String)
  timeString : Nat → String

def defaultColors : List String :=
  ["#FF6384", "#36A2EB", "#FFCE56", "#4BC0C0", "#9966FF", "#FF9F40",
    "#FF6384", "#C9CBCF"]

/-- The `getDefaultColor` palette lookup for dynamically detected JSON
fields. -/
def getDefaultColor (index : Nat) : String :=
  (defaultColors.get? (index % defaultColors.length)).getD ""

/-- The `detectSensorType` loop: each registered mapping is tried in order; a
pattern that fails to compile is logged and skipped; the first mapping whose
pattern tests true is returned. -/
def detectSensorType (env : JsEnv) : List SensorMapping → String → Option SensorMapping
  | [], _ => none
  | sensor :: rest, line =>
    if env.regexValid sensor.pattern then
      if (env.execRegex sensor.pattern line).isSome then some sensor
      else detectSensorType env rest line
    else detectSensorType env rest line

structure ParsedField where
  name : String
  value : Rat
  unit : String
  color : String
deriving DecidableEq, Repr

structure ParsedSensorData where
  sensorId : String
  sensorName : String
  timestamp : Nat
  fields : List ParsedField
deriving DecidableEq, Repr

/-- One declared field of a key-value/csv mapping, read from a match array:
`match[field.captureGroup]` (undefined when the index is out of range or the
group did not participate), then `parseFloat`; `none` when the capture does
not parse as a number (`isNaN`). -/
def parseCapture (env : JsEnv) (m : List (Option String)) (f : SensorField) :
    Option ParsedField :=
  match (m.get? f.captureGroup).join with
  | none => none
  | some cap =>
    match env.parseFloat cap with
    | none => none
    | some v => some ⟨f.name, v, f.unit, f.color⟩

/-- The `parseSensorLine` function.  `now` is the wall clock used for the
`new Date()` timestamp. -/
def parseSensorLine (env : JsEnv) (now : Nat) (line : String)
    (sensor : SensorMapping) : Option ParsedSensorData :=
  match sensor.format with
  | SensorFormat.json =>
    match env.jsonNumbers line with
    | none => none
    | some entries =>
      let fields := entries.enum.map
        (fun p => (⟨p.2.1, p.2.2, "", getDefaultColor p.1⟩ : ParsedField))
      if fields.isEmpty then none
      else some ⟨sensor.id, sensor.name, now, fields⟩
  | _ =>
    if env.regexValid sensor.pattern then
      match env.execRegex sensor.pattern line with
      | none => none
      | some m =>
        let validFields := sensor.fields.filterMap (parseCapture env m)
        if validFields.isEmpty then none
        else some ⟨sensor.id, sensor.name, now, validFields⟩
    else none

/-! Concrete model of the JS natives for the calibration pattern
`temp=([\d.]+)` with the `i` flag: scan left to right for the literal
`temp=` (case-insensitive) followed by a greedy nonempty run of digits and
dots. -/

def isDigitOrDot (c : Char) : Bool := c.isDigit || c == '.'

def tempMatchAt (cs : List Char) : Option (String × String) :=
  match cs with
  | c1 :: c2 :: c3 :: c4 :: c5 :: rest =>
    if c1.toLower == 't' && c2.toLower == 'e' && c3.toLower == 'm' &&
        c4.toLower == 'p' && c5 == '=' then
      let cap := rest.takeWhile isDigitOrDot
      if cap.isEmpty then none
      else some (String.mk (c1 :: c2 :: c3 :: c4 :: c5 :: cap), String.mk cap)
    else none
  | _ => none

def execTempAux : List Char → Option (String × String)
  | [] => none
  | c :: cs =>
    match tempMatchAt (c :: cs) with
    | some r => some r
    | none => execTempAux cs

/-- Model of `new RegExp("temp=([\\d.]+)", "i").exec(line)`. -/
def execTempRegex (line : String) : Option (List (Option String)) :=
  (execTempAux line.data).map (fun r => [some r.1, some r.2])

def digitsToNat (ds : List Char) : Nat :=
  ds.foldl (fun acc c => 10 * acc + (c.toNat - 48)) 0

/-- Model of JS `parseFloat` on the strings a `[\d.]+` capture can produce:
an integer part, optionally a dot and a fraction, parsing stops at the first
character that cannot extend the number; `none` (NaN) when no digit is
read. -/
def parseFloatDigitsDot (s : String) : Option Rat :=
  let cs := s.data
  let intPart := cs.takeWhile Char.isDigit
  let rest := cs.dropWhile Char.isDigit
  match rest with
  | '.' :: rest2 =>
    let fracPart := rest2.takeWhile Char.isDigit
    if intPart.isEmpty && fracPart.isEmpty then none
    else some ((digitsToNat intPart : Rat) +
      (digitsToNat fracPart : Rat) / ((10 : Rat) ^ fracPart.length))
  | _ => if intPart.isEmpty then none else some ((digitsToNat intPart : Rat))

def tempPattern : String := "temp=([\\d.]+)"

/-- The calibration key-value mapping from the spec's example. -/
def tempSensor : SensorMapping :=
  { id := "temp-sensor"
    name := "Temp Sensor"
    format := SensorFormat.keyValue
    pattern := tempPattern
    fields := [⟨"temp", "C", "#36A2EB", 1⟩] }

/-- A second registered mapping whose pattern also matches the same lines,
used to calibrate registration-order precedence. -/
def tempSensorShadow : SensorMapping :=
  { id := "temp-sensor-shadow"
    name := "Temp Shadow"
    format := SensorFormat.keyValue
    pattern := tempPattern
    fields := [⟨"temp", "C", "#FF6384", 1⟩] }

/-- Concrete native environment for the calibration examples: the regex
engine knows the single pattern `temp=([\d.]+)`, `parseFloat` follows the
decimal model, and `atob`/`TextDecoder` pass the payload through as text. -/
def tempEnv : JsEnv :=
  { regexValid := fun _ => true
    execRegex := fun pat line => if pat == tempPattern then execTempRegex line else none
    parseFloat := parseFloatDigitsDot
    jsonNumbers := fun _ => none
    decodeB64 := fun s => some ([], s)
    timeString := fun _ => "12:00:00" }

/-- C4: for a key-value/csv mapping whose pattern compiles, `parseSensorLine`
applies the pattern once and (a) returns `none` when the pattern does not
match; (b) returns `none` exactly when no declared field's capture parses as
a number; (c) otherwise returns the declared fields read through their
1-based capture groups with the non-parsing ones dropped; and (d) on pattern
`temp=([\d.]+)` with field `temp` in capture group 1, the line `temp=23.5`
parses to the single field `temp = 23.5`. -/
theorem parseSensorLine_keyvalue_spec (env : JsEnv) (now : Nat) (line : String)
    (sensor : SensorMapping) (hfmt : sensor.format ≠ SensorFormat.json)
    (hvalid : env.regexValid sensor.pattern = true) :
    (env.execRegex sensor.pattern line = none →
      parseSensorLine env now line sensor = none)
    ∧ (∀ m, env.execRegex sensor.pattern line = some m →
        (parseSensorLine env now line sensor = none ↔
          sensor.fields.filterMap (parseCapture env m) = []))
    ∧ (∀ m, env.execRegex sensor.pattern line = some m →
        sensor.fields.filterMap (parseCapture env m) ≠ [] →
        parseSensorLine env now line sensor =
          some ⟨sensor.id, sensor.name, now,
            sensor.fields.filterMap (parseCapture env m)⟩)
    ∧ parseSensorLine tempEnv now "temp=23.5" tempSensor =
        some ⟨"temp-sensor", "Temp Sensor", now, [⟨"temp", 23.5, "C", "#36A2EB"⟩]⟩ := by
  have hbranch : ∀ r : Option ParsedSensorData,
      (match sensor.format with
        | SensorFormat.json => r
        | _ => r) = r := by
    intro r
    cases sensor.format <;> rfl
  refine ⟨?_, ?_, ?_, ?_⟩
  · intro hnone
    cases hf : sensor.format with
    | json => exact absurd hf hfmt
    | keyValue => simp [parseSensorLine, hf, hvalid, hnone]
    | csv => simp [parseSensorLine, hf, hvalid, hnone]
  · intro m hm
    cases hf : sensor.format with
    | json => exact absurd hf hfmt
    | keyValue =>
      simp only [parseSensorLine, hf, hvalid, hm, if_true]
      by_cases he : sensor.fields.filterMap (parseCapture env m) = []
      · simp [he]
      · simp [he, List.isEmpty_iff]
    | csv =>
      simp only [parseSensorLine, hf, hvalid, hm, if_true]
      by_cases he : sensor.fields.filterMap (parseCapture env m) = []
      · simp [he]
      · simp [he, List.isEmpty_iff]
  · intro m hm hne
    cases hf : sensor.format with
    | json => exact absurd hf hfmt
    | keyValue =>
      simp [parseSensorLine, hf, hvalid, hm, List.isEmpty_iff, hne]
    | csv =>
      simp [parseSensorLine, hf, hvalid, hm, List.isEmpty_iff, hne]
  · have hred : parseSensorLine tempEnv now "temp=23.5" tempSensor =
        some ⟨"temp-sensor", "Temp Sensor", now,
          [⟨"temp",
            (digitsToNat ['2', '3'] : Rat) +
              (digitsToNat ['5'] : Rat) / ((10 : Rat) ^ (['5'] : List Char).length),
            "C", "#36A2EB"⟩]⟩ := rfl
    have h2 : ('2'.toNat - 48) = 2 := rfl
    have h3 : ('3'.toNat - 48) = 3 := rfl
    have h5 : ('5'.toNat - 48) = 5 := rfl
    rw [hred]
    norm_num [digitsToNat, h2, h3, h5]

theorem parseSensorLine_keyvalue_spec_witness :
    (tempEnv.execRegex tempSensor.pattern "temp=23.5" = none →
      parseSensorLine tempEnv 0 "temp=23.5" tempSensor = none)
    ∧ (∀ m, tempEnv.execRegex tempSensor.pattern "temp=23.5" = some m →
        (parseSensorLine tempEnv 0 "temp=23.5" tempSensor = none ↔
          tempSensor.fields.filterMap (parseCapture tempEnv m) = []))
    ∧ (∀ m, tempEnv.execRegex tempSensor.pattern "temp=23.5" = some m →
        tempSensor.fields.filterMap (parseCapture tempEnv m) ≠ [] →
        parseSensorLine tempEnv 0 "temp=23.5" tempSensor =
          some ⟨tempSensor.id, tempSensor.name, 0,
            tempSensor.fields.filterMap (parseCapture tempEnv m)⟩)
    ∧ parseSensorLine tempEnv 0 "temp=23.5" tempSensor =
        some ⟨"temp-sensor", "Temp Sensor", 0, [⟨"temp", 23.5, "C", "#36A2EB"⟩]⟩ :=
  parseSensorLine_keyvalue_spec tempEnv 0 "temp=23.5" tempSensor
    (by decide) rfl

/-- A mapping matches a line when its pattern compiles and tests true, the
condition `detectSensorType` checks. -/
def mappingMatches (env : JsEnv) (m : SensorMapping) (line : String) : Prop :=
  env.regexValid m.pattern = true ∧ (env.execRegex m.pattern line).isSome = true

/-- C8: `detectSensorType` tries the registered mappings in registration
order and returns the first whose pattern matches; when no registered
mapping's pattern matches it returns `none`.  In particular two mappings
that could both match a line resolve to the earlier-registered one. -/
theorem detectSensorType_first_match (env : JsEnv) (line : String)
    (pre post : List SensorMapping) (sensor : SensorMapping)
    (hpre : ∀ m ∈ pre, ¬ mappingMatches env m line)
    (hm : mappingMatches env sensor line) :
    detectSensorType env (pre ++ sensor :: post) line = some sensor
    ∧ (∀ mappings : List SensorMapping,
        (∀ m ∈ mappings, ¬ mappingMatches env m line) →
        detectSensorType env mappings line = none) := by
  constructor
  · induction pre with
    | nil =>
      simp only [List.nil_append, detectSensorType, hm.1, if_true, hm.2]
    | cons m0 rest ih =>
      have hm0 := hpre m0 (List.mem_cons_self m0 rest)
      have hrest : ∀ m ∈ rest, ¬ mappingMatches env m line := by
        intro m hmem
        exact hpre m (List.mem_cons_of_mem m0 hmem)
      rw [List.cons_append, detectSensorType]
      by_cases hv : env.regexValid m0.pattern = true
      · have hexec : (env.execRegex m0.pattern line).isSome = false := by
          cases hcase : env.execRegex m0.pattern line with
          | none => rfl
          | some v => exact absurd ⟨hv, by simp [hcase]⟩ hm0
        simp [hv, hexec, ih hrest]
      · simp only [Bool.not_eq_true] at hv
        simp [hv, ih hrest]
  · intro mappings hall
    induction mappings with
    | nil => rfl
    | cons m0 rest ih =>
      have hm0 := hall m0 (List.mem_cons_self m0 rest)
      have hrest : ∀ m ∈ rest, ¬ mappingMatches env m line := by
        intro m hmem
        exact hall m (List.mem_cons_of_mem m0 hmem)
      rw [detectSensorType]
      by_cases hv : env.regexValid m0.pattern = true
      · have hexec : (env.execRegex m0.pattern line).isSome = false := by
          cases hcase : env.execRegex m0.pattern line with
          | none => rfl
          | some v => exact absurd ⟨hv, by simp [hcase]⟩ hm0
        simp [hv, hexec, ih hrest]
      · simp only [Bool.not_eq_true] at hv
        simp [hv, ih hrest]

theorem detectSensorType_first_match_witness :
    detectSensorType tempEnv ([] ++ tempSensor :: [tempSensorShadow]) "temp=23.5"
        = some tempSensor
    ∧ (∀ mappings : List SensorMapping,
        (∀ m ∈ mappings, ¬ mappingMatches tempEnv m "temp=23.5") →
        detectSensorType tempEnv mappings "temp=23.5" = none) :=
  detectSensorType_first_match tempEnv "temp=23.5" [] [tempSensorShadow] tempSensor
    (by intro m hmem; cases hmem) ⟨rfl, rfl⟩


/-! ### Telemetry store (`src/stores/telemetryStore.ts`) -/

def ONE_HOUR_MS : Nat := 60 * 60 * 1000

/-- The `deviceKey` helper. -/
def deviceKey (hubId portId : String) : String := hubId ++ ":" ++ portId

structure ChartDataPoint where
  timestamp : Nat
  value : Rat
deriving DecidableEq, Repr

structure FieldChartData where
  fieldName : String
  unit : String
  color : String
  data : List ChartDataPoint
deriving DecidableEq, Repr

structure DeviceChartData where
  deviceId : String
  hubId : String
  portId : String
  sensorName : String
  fields : List FieldChartData
deriving DecidableEq, Repr

structure DeviceTelemetryState where
  rawData : String
  hexData : String
  sensorMapping : Option SensorMapping
  chartData : DeviceChartData
  lastUpdate : Nat
deriving DecidableEq, Repr

structure TelemetryMessage where
  hubId : String
  portId : String
  timestamp : Nat
  data : String
deriving DecidableEq, Repr

structure TelemetryState where
  devices : List (String × DeviceTelemetryState)
  detectedSensors : List (String × String)
deriving Repr

def initialTelemetryState : TelemetryState := ⟨[], []⟩

inductive TimeWindow
  | fiveMin
  | fifteenMin
  | thirtyMin
  | oneHour
deriving DecidableEq, Repr

def getTimeWindowMilliseconds : TimeWindow → Nat
  | TimeWindow.fiveMin => 5 * 60 * 1000
  | TimeWindow.fifteenMin => 15 * 60 * 1000
  | TimeWindow.thirtyMin => 30 * 60 * 1000
  | TimeWindow.oneHour => 60 * 60 * 1000

/-- The `pruneOldDataPoints` helper: keep the points with
`now - point.timestamp < maxAge` (`now` is `Date.now()` at the call). -/
def pruneOldDataPoints (now : Nat) (data : List ChartDataPoint) (maxAge : Nat) :
    List ChartDataPoint :=
  data.filter (fun point => now - point.timestamp < maxAge)

structure DecodedTelemetry where
  raw : List Nat
  text : String
  lines : List String
deriving Repr

/-- Split on the separator regex used by `decodeTelemetryData`: a newline
optionally preceded by a carriage return. -/
def splitCRLF (acc : List Char) (cs : List Char) : List String :=
  match cs with
  | [] => [String.mk acc.reverse]
  | '\r' :: '\n' :: rest => String.mk acc.reverse :: splitCRLF [] rest
  | '\n' :: rest => String.mk acc.reverse :: splitCRLF [] rest
  | c :: rest => splitCRLF (c :: acc) rest

/-- Model of the JS native `String.prototype.trim`: strip leading and
trailing whitespace. -/
def jsTrim (s : String) : String :=
  String.mk (((s.data.dropWhile Char.isWhitespace).reverse.dropWhile
    Char.isWhitespace).reverse)

/-- Model of the JS native `String.prototype.split` on a single separator
character (empty pieces preserved). -/
def splitOnChar (sep : Char) (acc : List Char) (cs : List Char) : List String :=
  match cs with
  | [] => [String.mk acc.reverse]
  | c :: rest =>
    if c == sep then String.mk acc.reverse :: splitOnChar sep [] rest
    else splitOnChar sep (c :: acc) rest

/-- The `decodeTelemetryData` function: `atob` plus permissive UTF-8
decoding (both in the environment), then non-blank line splitting; when the
decode throws the result degrades to empty output. -/
def decodeTelemetryData (env : JsEnv) (base64Data : String) : DecodedTelemetry :=
  match env.decodeB64 base64Data with
  | none => ⟨[], "", []⟩
  | some (bytes, text) =>
    ⟨bytes, text,
      (splitCRLF [] text.data).filter (fun line => !(jsTrim line).data.isEmpty)⟩

/-! The `bytesToHexDump` helper (offsets and hex cells uppercase, 16 bytes
per line, printable ASCII column). -/

def natToHexUpper (n : Nat) : List Char :=
  (Nat.toDigits 16 n).map Char.toUpper

def padStartZeros (l : List Char) (w : Nat) : List Char :=
  List.replicate (w - l.length) '0' ++ l

def hexCellsFor (lineBytes : List Nat) : List String :=
  (List.range 16).flatMap (fun j =>
    let cell := match lineBytes.get? j with
      | some byte => String.mk (padStartZeros (natToHexUpper byte) 2)
      | none => "  "
    if j == 7 then [cell, " "] else [cell])

def asciiCellsFor (lineBytes : List Nat) : List String :=
  (List.range 16).map (fun j =>
    match lineBytes.get? j with
    | some byte =>
      if 32 ≤ byte ∧ byte ≤ 126 then String.mk [Char.ofNat byte] else "."
    | none => " ")

def hexDumpLine (offset : Nat) (lineBytes : List Nat) : String :=
  String.mk (padStartZeros (natToHexUpper offset) 8) ++ "  " ++
    String.intercalate " " (hexCellsFor lineBytes) ++ "  |" ++
    String.join (asciiCellsFor lineBytes) ++ "|\n"

def hexDumpChunks (offset : Nat) (bs : List Nat) : String :=
  match bs with
  | [] => ""
  | b :: rest =>
    hexDumpLine offset ((b :: rest).take 16) ++
      hexDumpChunks (offset + 16) ((b :: rest).drop 16)
termination_by bs.length
decreasing_by simp; omega

def bytesToHexDump (bytes : List Nat) : String := hexDumpChunks 0 bytes

structure ParseResult where
  decoded : DecodedTelemetry
  parsed : List ParsedSensorData
  detectedSensor : Option SensorMapping

/-- The body of the per-line loop in `parseTelemetryData`: detect a mapping
when none is known yet (skipping the line when detection fails), then parse
the line with the known mapping, collecting successful parses. -/
def parseLineStep (env : JsEnv) (mappings : List SensorMapping) (now : Nat)
    (st : List ParsedSensorData × Option SensorMapping) (line : String) :
    List ParsedSensorData × Option SensorMapping :=
  match st.2 with
  | none =>
    match detectSensorType env mappings line with
    | none => st
    | some d =>
      match parseSensorLine env now line d with
      | some parsedLine => (st.1 ++ [parsedLine], some d)
      | none => (st.1, some d)
  | some d =>
    match parseSensorLine env now line d with
    | some parsedLine => (st.1 ++ [parsedLine], some d)
    | none => (st.1, some d)

/-- The `parseTelemetryData` function: decode, then fold the per-line loop
with the sticky previously-detected mapping. -/
def parseTelemetryData (env : JsEnv) (mappings : List SensorMapping) (now : Nat)
    (base64Data : String) (previousSensor : Option SensorMapping) : ParseResult :=
  let decoded := decodeTelemetryData env base64Data
  let r := decoded.lines.foldl (parseLineStep env mappings now) ([], previousSensor)
  ⟨decoded, r.1, r.2⟩

/-- All field names appearing in the parsed output of one frame. -/
def parsedFieldNames (pr : ParseResult) : List String :=
  pr.parsed.flatMap (fun pd => pd.fields.map (fun f => f.name))

/-- The find-or-create / append / prune body of the per-field loop in
`processTelemetry`: the series for the parsed field gets the new
`{timestamp, value}` point and is then pruned to the one-hour horizon;
every other series is left as it is. -/
def addPointToFields (now ts : Nat) (f : ParsedField)
    (fields : List FieldChartData) : List FieldChartData :=
  if fields.any (fun fd => fd.fieldName == f.name) then
    fields.map (fun fd =>
      if fd.fieldName == f.name then
        { fd with data := pruneOldDataPoints now (fd.data ++ [⟨ts, f.value⟩]) ONE_HOUR_MS }
      else fd)
  else
    fields ++ [{ fieldName := f.name, unit := f.unit, color := f.color,
                 data := pruneOldDataPoints now [⟨ts, f.value⟩] ONE_HOUR_MS }]

/-- The nested `parsed.forEach(... fields.forEach ...)` loops of
`processTelemetry`. -/
def applyParsed (now ts : Nat) (parsed : List ParsedSensorData)
    (fields : List FieldChartData) : List FieldChartData :=
  parsed.foldl
    (fun fs pd => pd.fields.foldl (fun fs f => addPointToFields now ts f fs) fs)
    fields

/-- The device-state construction of `processTelemetry` before the chart
update: fresh state on first sight, otherwise append to the raw/hex buffers
(raw capped to the last 1000 lines) and keep the sticky mapping. -/
def ingestBase (env : JsEnv) (mappings : List SensorMapping) (now : Nat)
    (message : TelemetryMessage) (st : TelemetryState) : DeviceTelemetryState :=
  let key := deviceKey message.hubId message.portId
  let existing := assocLookup st.devices key
  let pr := parseTelemetryData env mappings now message.data
    (existing.bind (fun d => d.sensorMapping))
  let terminalText := String.intercalate "\n"
    (pr.decoded.lines.map (fun line =>
      "[" ++ env.timeString message.timestamp ++ "] " ++ line))
  let hexDump := if pr.decoded.raw.length > 0 then bytesToHexDump pr.decoded.raw else ""
  match existing with
  | none =>
    { rawData := terminalText
      hexData := hexDump
      sensorMapping := pr.detectedSensor
      chartData :=
        { deviceId := key
          hubId := message.hubId
          portId := message.portId
          sensorName := (pr.detectedSensor.map (fun d => d.name)).getD "Unknown"
          fields := [] }
      lastUpdate := now }
  | some ex =>
    let raw0 := ex.rawData ++ "\n" ++ terminalText
    let ls := splitOnChar '\n' [] raw0.data
    let raw1 := if ls.length > 1000
      then String.intercalate "\n" (ls.drop (ls.length - 1000)) else raw0
    { ex with
        rawData := raw1
        hexData := ex.hexData ++ hexDump
        sensorMapping := pr.detectedSensor.orElse (fun _ => ex.sensorMapping)
        lastUpdate := now }

/-- The full device state written back by `processTelemetry`: when the frame
produced parsed values and a mapping is known, every parsed field's series
gets the new point and is pruned, and the aggregate's sensor name follows the
mapping. -/
def ingestDeviceState (env : JsEnv) (mappings : List SensorMapping) (now : Nat)
    (message : TelemetryMessage) (st : TelemetryState) : DeviceTelemetryState :=
  let pr := parseTelemetryData env mappings now message.data
    ((assocLookup st.devices (deviceKey message.hubId message.portId)).bind
      (fun d => d.sensorMapping))
  let base := ingestBase env mappings now message st
  if 0 < pr.parsed.length ∧ base.sensorMapping.isSome then
    { base with
        chartData :=
          { base.chartData with
              fields := applyParsed now message.timestamp pr.parsed base.chartData.fields
              sensorName :=
                (base.sensorMapping.map (fun m => m.name)).getD base.chartData.sensorName } }
  else base

/-- The `processTelemetry` action. -/
def processTelemetry (env : JsEnv) (mappings : List SensorMapping) (now : Nat)
    (message : TelemetryMessage) (st : TelemetryState) : TelemetryState :=
  let key := deviceKey message.hubId message.portId
  let pr := parseTelemetryData env mappings now message.data
    ((assocLookup st.devices key).bind (fun d => d.sensorMapping))
  let detectedSensors1 :=
    match pr.detectedSensor with
    | some d => assocSet key d.name st.detectedSensors
    | none => st.detectedSensors
  { devices := assocSet key (ingestDeviceState env mappings now message st) st.devices
    detectedSensors := detectedSensors1 }

/-- The `getChartData` query: each field's series filtered to the requested
window. -/
def getChartData (now : Nat) (st : TelemetryState) (hubId portId : String)
    (timeWindow : TimeWindow) : List FieldChartData :=
  match assocLookup st.devices (deviceKey hubId portId) with
  | none => []
  | some deviceData =>
    if deviceData.chartData.fields.isEmpty then []
    else
      let windowMs := getTimeWindowMilliseconds timeWindow
      deviceData.chartData.fields.map (fun field =>
        { field with
            data := field.data.filter (fun point => now - point.timestamp < windowMs) })


/-! ### C1: the retention invariant -/

theorem pruneOldDataPoints_mem (now maxAge : Nat) (data : List ChartDataPoint)
    (p : ChartDataPoint) (hp : p ∈ pruneOldDataPoints now data maxAge) :
    now - p.timestamp < maxAge := by
  have h := List.mem_filter.mp hp
  simpa using h.2

/-- The series whose names are in `S` hold only points within the horizon. -/
def TouchedPruned (now : Nat) (S : List String) (fs : List FieldChartData) : Prop :=
  ∀ fd ∈ fs, fd.fieldName ∈ S → ∀ p ∈ fd.data, now - p.timestamp < ONE_HOUR_MS

theorem touchedPruned_mono (now : Nat) (S T : List String)
    (hss : ∀ x ∈ S, x ∈ T) (fs : List FieldChartData)
    (h : TouchedPruned now T fs) : TouchedPruned now S fs :=
  fun fd hfd hname => h fd hfd (hss _ hname)

theorem addPointToFields_touched (now ts : Nat) (f : ParsedField)
    (S : List String) (fs : List FieldChartData) (h : TouchedPruned now S fs) :
    TouchedPruned now (f.name :: S) (addPointToFields now ts f fs) := by
  intro fd hfd hname p hp
  unfold addPointToFields at hfd
  by_cases hany : fs.any (fun fd => fd.fieldName == f.name) = true
  · rw [if_pos hany] at hfd
    obtain ⟨fd0, hfd0, heq⟩ := List.mem_map.mp hfd
    by_cases hn : (fd0.fieldName == f.name) = true
    · rw [if_pos hn] at heq
      subst heq
      exact pruneOldDataPoints_mem now ONE_HOUR_MS _ p hp
    · rw [if_neg hn] at heq
      subst heq
      rcases List.mem_cons.mp hname with heqn | hmem
      · exact absurd (by simp [heqn]) hn
      · exact h fd0 hfd0 hmem p hp
  · rw [if_neg hany] at hfd
    rcases List.mem_append.mp hfd with hin | hnew
    · rcases List.mem_cons.mp hname with heqn | hmem
      · exact absurd (List.any_eq_true.mpr ⟨fd, hin, by simp [heqn]⟩) hany
      · exact h fd hin hmem p hp
    · rw [List.mem_singleton.mp hnew] at hp
      exact pruneOldDataPoints_mem now ONE_HOUR_MS _ p hp

theorem foldl_addPoint_touched (now ts : Nat) (fl : List ParsedField)
    (S : List String) (fs : List FieldChartData) (h : TouchedPruned now S fs) :
    TouchedPruned now (fl.map (fun f => f.name) ++ S)
      (fl.foldl (fun fs f => addPointToFields now ts f fs) fs) := by
  induction fl generalizing S fs with
  | nil => simpa using h
  | cons f rest ih =>
    rw [List.foldl_cons]
    have h1 := addPointToFields_touched now ts f S fs h
    have h2 := ih (f.name :: S) _ h1
    refine touchedPruned_mono now _ _ ?_ _ h2
    intro x hx
    simp only [List.map_cons, List.cons_append, List.mem_cons, List.mem_append] at hx
    simp only [List.mem_append, List.mem_cons]
    tauto

theorem applyParsed_touched (now ts : Nat) (parsed : List ParsedSensorData)
    (S : List String) (fs : List FieldChartData) (h : TouchedPruned now S fs) :
    TouchedPruned now
      (parsed.flatMap (fun pd => pd.fields.map (fun f => f.name)) ++ S)
      (applyParsed now ts parsed fs) := by
  induction parsed generalizing S fs with
  | nil => simpa [applyParsed] using h
  | cons pd rest ih =>
    have hcons : applyParsed now ts (pd :: rest) fs =
        applyParsed now ts rest
          (pd.fields.foldl (fun fs f => addPointToFields now ts f fs) fs) := rfl
    rw [hcons]
    have h1 := foldl_addPoint_touched now ts pd.fields S fs h
    have h2 := ih (pd.fields.map (fun f => f.name) ++ S) _ h1
    refine touchedPruned_mono now _ _ ?_ _ h2
    intro x hx
    simp only [List.flatMap_cons, List.append_assoc, List.mem_append] at hx
    simp only [List.mem_append]
    tauto

theorem parseLineStep_some (env : JsEnv) (mappings : List SensorMapping)
    (now : Nat) (st : List ParsedSensorData × Option SensorMapping)
    (line : String) (d : SensorMapping) (hst : st.2 = some d) :
    parseLineStep env mappings now st line =
      match parseSensorLine env now line d with
      | some parsedLine => (st.1 ++ [parsedLine], some d)
      | none => (st.1, some d) := by
  unfold parseLineStep
  rw [hst]

theorem parseLineStep_none_det (env : JsEnv) (mappings : List SensorMapping)
    (now : Nat) (st : List ParsedSensorData × Option SensorMapping)
    (line : String) (hst : st.2 = none) :
    parseLineStep env mappings now st line =
      match detectSensorType env mappings line with
      | none => st
      | some d =>
        match parseSensorLine env now line d with
        | some parsedLine => (st.1 ++ [parsedLine], some d)
        | none => (st.1, some d) := by
  unfold parseLineStep
  rw [hst]

/-- Once a mapping is detected it stays detected for the rest of the frame. -/
theorem parseLineStep_sticky (env : JsEnv) (mappings : List SensorMapping)
    (now : Nat) (st : List ParsedSensorData × Option SensorMapping)
    (line : String) (d : SensorMapping) (hst : st.2 = some d) :
    (parseLineStep env mappings now st line).2 = some d := by
  rw [parseLineStep_some env mappings now st line d hst]
  cases parseSensorLine env now line d <;> rfl

theorem parseLineStep_none_cases (env : JsEnv) (mappings : List SensorMapping)
    (now : Nat) (st : List ParsedSensorData × Option SensorMapping)
    (line : String) (hst : st.2 = none) :
    parseLineStep env mappings now st line = st ∨
      ∃ d, (parseLineStep env mappings now st line).2 = some d := by
  rw [parseLineStep_none_det env mappings now st line hst]
  cases detectSensorType env mappings line with
  | none => exact Or.inl rfl
  | some d =>
    right
    refine ⟨d, ?_⟩
    show (match parseSensorLine env now line d with
      | some parsedLine => (st.1 ++ [parsedLine], some d)
      | none => (st.1, some d)).2 = some d
    cases parseSensorLine env now line d <;> rfl

theorem foldl_sticky (env : JsEnv) (mappings : List SensorMapping) (now : Nat)
    (lines : List String) (st : List ParsedSensorData × Option SensorMapping)
    (d : SensorMapping) (hst : st.2 = some d) :
    (lines.foldl (parseLineStep env mappings now) st).2 = some d := by
  induction lines generalizing st with
  | nil => exact hst
  | cons line rest ih =>
    rw [List.foldl_cons]
    exact ih _ (parseLineStep_sticky env mappings now st line d hst)

theorem parse_foldl_none (env : JsEnv) (mappings : List SensorMapping) (now : Nat)
    (lines : List String) (st : List ParsedSensorData × Option SensorMapping)
    (h : (lines.foldl (parseLineStep env mappings now) st).2 = none) :
    (lines.foldl (parseLineStep env mappings now) st).1 = st.1 ∧ st.2 = none := by
  induction lines generalizing st with
  | nil => exact ⟨rfl, h⟩
  | cons line rest ih =>
    rw [List.foldl_cons] at h ⊢
    have hst : st.2 = none := by
      cases hst2 : st.2 with
      | none => rfl
      | some d =>
        have hs := foldl_sticky env mappings now rest _ d
          (parseLineStep_sticky env mappings now st line d hst2)
        rw [hs] at h
        exact Option.noConfusion h
    rcases parseLineStep_none_cases env mappings now st line hst with heq | ⟨d, hd⟩
    · rw [heq] at h ⊢
      exact ih _ h
    · have hs := foldl_sticky env mappings now rest _ d hd
      rw [hs] at h
      exact Option.noConfusion h

theorem parseTelemetryData_parsed_eq (env : JsEnv) (mappings : List SensorMapping)
    (now : Nat) (data : String) (prev : Option SensorMapping) :
    (parseTelemetryData env mappings now data prev).parsed =
      ((decodeTelemetryData env data).lines.foldl
        (parseLineStep env mappings now) ([], prev)).1 := rfl

theorem parseTelemetryData_det_eq (env : JsEnv) (mappings : List SensorMapping)
    (now : Nat) (data : String) (prev : Option SensorMapping) :
    (parseTelemetryData env mappings now data prev).detectedSensor =
      ((decodeTelemetryData env data).lines.foldl
        (parseLineStep env mappings now) ([], prev)).2 := rfl

/-- Lines preceding detection are skipped, so a frame that parsed anything
must have a detected mapping. -/
theorem parsed_nonempty_detected (env : JsEnv) (mappings : List SensorMapping)
    (now : Nat) (data : String) (prev : Option SensorMapping)
    (h : (parseTelemetryData env mappings now data prev).parsed ≠ []) :
    (parseTelemetryData env mappings now data prev).detectedSensor.isSome = true := by
  rw [parseTelemetryData_parsed_eq] at h
  rw [parseTelemetryData_det_eq]
  cases hdet : ((decodeTelemetryData env data).lines.foldl
      (parseLineStep env mappings now) ([], prev)).2 with
  | none => exact absurd (parse_foldl_none env mappings now _ _ hdet).1 h
  | some d => rfl

theorem ingestBase_mapping_isSome (env : JsEnv) (mappings : List SensorMapping)
    (now : Nat) (message : TelemetryMessage) (st : TelemetryState)
    (h : (parseTelemetryData env mappings now message.data
        ((assocLookup st.devices (deviceKey message.hubId message.portId)).bind
          (fun x => x.sensorMapping))).detectedSensor.isSome = true) :
    (ingestBase env mappings now message st).sensorMapping.isSome = true := by
  unfold ingestBase
  cases hex : assocLookup st.devices (deviceKey message.hubId message.portId) with
  | none =>
    rw [hex] at h
    simp only [hex]
    exact h
  | some ex =>
    rw [hex] at h
    simp only [hex]
    cases hdet : (parseTelemetryData env mappings now message.data
        ((some ex).bind (fun x => x.sensorMapping))).detectedSensor with
    | none => rw [hdet] at h; exact absurd h (by simp)
    | some d => simp [Option.orElse]

theorem ingestDeviceState_fields_of_parsed (env : JsEnv)
    (mappings : List SensorMapping) (now : Nat) (message : TelemetryMessage)
    (st : TelemetryState)
    (hne : (parseTelemetryData env mappings now message.data
        ((assocLookup st.devices (deviceKey message.hubId message.portId)).bind
          (fun x => x.sensorMapping))).parsed ≠ []) :
    (ingestDeviceState env mappings now message st).chartData.fields =
      applyParsed now message.timestamp
        (parseTelemetryData env mappings now message.data
          ((assocLookup st.devices (deviceKey message.hubId message.portId)).bind
            (fun x => x.sensorMapping))).parsed
        (ingestBase env mappings now message st).chartData.fields := by
  have hdet := parsed_nonempty_detected env mappings now message.data _ hne
  have hbase := ingestBase_mapping_isSome env mappings now message st hdet
  have hguard : 0 < (parseTelemetryData env mappings now message.data
      ((assocLookup st.devices (deviceKey message.hubId message.portId)).bind
        (fun x => x.sensorMapping))).parsed.length ∧
      (ingestBase env mappings now message st).sensorMapping.isSome = true :=
    ⟨List.length_pos.mpr hne, hbase⟩
  unfold ingestDeviceState
  rw [if_pos hguard]

/-- C1 (amended): immediately after a `processTelemetry` call at wall clock
`now`, every field series that received a point from this call (its name
occurs among the fields parsed from this message) contains no point older
than the one-hour retention horizon.  (The original claim over *every* field
series fails: pruning runs only on the series parsed in the call — see the
counterexample.) -/
theorem retention_after_ingest (env : JsEnv) (mappings : List SensorMapping)
    (now : Nat) (message : TelemetryMessage) (st : TelemetryState)
    (d : DeviceTelemetryState) (fd : FieldChartData)
    (hd : assocLookup (processTelemetry env mappings now message st).devices
        (deviceKey message.hubId message.portId) = some d)
    (hfd : fd ∈ d.chartData.fields)
    (htouched : fd.fieldName ∈ parsedFieldNames
      (parseTelemetryData env mappings now message.data
        ((assocLookup st.devices (deviceKey message.hubId message.portId)).bind
          (fun x => x.sensorMapping)))) :
    ∀ p ∈ fd.data, now - p.timestamp < ONE_HOUR_MS := by
  have hdev : (processTelemetry env mappings now message st).devices =
      assocSet (deviceKey message.hubId message.portId)
        (ingestDeviceState env mappings now message st) st.devices := rfl
  rw [hdev, assocLookup_set] at hd
  have hd' : d = ingestDeviceState env mappings now message st :=
    (Option.some.inj hd).symm
  subst hd'
  by_cases hparsed : (parseTelemetryData env mappings now message.data
      ((assocLookup st.devices (deviceKey message.hubId message.portId)).bind
        (fun x => x.sensorMapping))).parsed = []
  · rw [parsedFieldNames, hparsed] at htouched
    simp at htouched
  · rw [ingestDeviceState_fields_of_parsed env mappings now message st hparsed] at hfd
    have hbase0 : TouchedPruned now []
        (ingestBase env mappings now message st).chartData.fields := by
      intro fd0 _ hname
      simp at hname
    have htp := applyParsed_touched now message.timestamp
      (parseTelemetryData env mappings now message.data
        ((assocLookup st.devices (deviceKey message.hubId message.portId)).bind
          (fun x => x.sensorMapping))).parsed [] _ hbase0
    refine htp fd hfd ?_
    rw [parsedFieldNames] at htouched
    simpa using htouched

/-- The retention invariant exactly as the claim states it: immediately
after an ingestion call at wall clock `now`, no field series of any device
holds a point older than the one-hour horizon. -/
def retentionClaim (now : Nat) (st : TelemetryState) : Prop :=
  ∀ kd ∈ st.devices, ∀ fd ∈ kd.2.chartData.fields, ∀ p ∈ fd.data,
    now - p.timestamp ≤ ONE_HOUR_MS

def cMsg1 : TelemetryMessage := ⟨"hub-a", "p1", 0, "temp=23.5"⟩

def cMsg2 : TelemetryMessage := ⟨"hub-a", "p1", 8000000, "noise"⟩

/-- C1 counterexample: ingest `temp=23.5` at time 0 (the series gets one
point at timestamp 0), then ingest an unparseable frame at time 8000000
(more than one hour later).  The second call parses nothing, prunes nothing,
and leaves the stale point in place, so immediately after that ingestion
call the `temp` series holds a point older than the one-hour horizon,
refuting the claimed invariant. -/
theorem retention_claim_counterexample :
    ¬ retentionClaim 8000000
      (processTelemetry tempEnv [tempSensor] 8000000 cMsg2
        (processTelemetry tempEnv [tempSensor] 0 cMsg1 initialTelemetryState)) := by
  unfold retentionClaim
  decide

def cIngested : DeviceTelemetryState :=
  ingestDeviceState tempEnv [tempSensor] 0 cMsg1 initialTelemetryState

def cTempField : FieldChartData :=
  cIngested.chartData.fields.getD 0 ⟨"", "", "", []⟩

theorem retention_after_ingest_witness :
    cTempField.data.all (fun p => decide (0 - p.timestamp < ONE_HOUR_MS)) = true := by
  have hfields : cIngested.chartData.fields = [cTempField] := rfl
  have hfd : cTempField ∈ cIngested.chartData.fields := by
    rw [hfields]
    exact List.mem_singleton.mpr rfl
  have h := retention_after_ingest tempEnv [tempSensor] 0 cMsg1
    initialTelemetryState cIngested cTempField rfl hfd (by decide)
  rw [List.all_eq_true]
  intro p hp
  exact decide_eq_true (h p hp)


/-! ### Task tracker (`src/stores/hubStore.ts` task actions and
`CommandService` in the command service) -/

inductive TaskStatus
  | pending
  | running
  | completed
  | failed
deriving DecidableEq, Repr

structure Task where
  task_id : String
  command_type : String
  status : TaskStatus
  priority : Nat
  port_id : String
  hub_id : String
  result : Option String
  error : Option String
  created_at : String
  started_at : Option String
  completed_at : Option String
deriving DecidableEq, Repr

structure StatusUpdate where
  task_id : String
  status : TaskStatus
  result : Option String
  error : Option String
deriving DecidableEq, Repr

/-- The per-task merge inside `updateTaskStatus`: the status is overwritten,
`result`/`error` only when present in the update, `started_at` is stamped
when the update moves the task to `running` and it was never stamped, and
`completed_at` when the update moves it to a terminal status and it was
never stamped (`now` is `new Date().toISOString()`). -/
def applyTaskUpdate (now : String) (update : StatusUpdate) (task : Task) : Task :=
  { task with
      status := update.status
      result := match update.result with
        | some r => some r
        | none => task.result
      error := match update.error with
        | some e => some e
        | none => task.error
      started_at :=
        if update.status = TaskStatus.running ∧ task.started_at = none
        then some now else task.started_at
      completed_at :=
        if (update.status = TaskStatus.completed ∨ update.status = TaskStatus.failed) ∧
            task.completed_at = none
        then some now else task.completed_at }

/-- The `updateTaskStatus` action: map over the task list, merging the
update into the tasks whose `task_id` matches. -/
def updateTaskStatus (now : String) (update : StatusUpdate) (tasks : List Task) :
    List Task :=
  tasks.map (fun task =>
    if task.task_id == update.task_id then applyTaskUpdate now update task else task)

/-- The `getActiveTaskForPort` query. -/
def getActiveTaskForPort (tasks : List Task) (portId : String) : Option Task :=
  tasks.find? (fun task => task.port_id == portId &&
    (task.status == TaskStatus.pending || task.status == TaskStatus.running))

/-- The `addTask` action. -/
def addTask (task : Task) (tasks : List Task) : List Task := tasks ++ [task]

/-- The `cleanupCompletedTasks` sweep. -/
def cleanupCompletedTasks (tasks : List Task) : List Task :=
  tasks.filter (fun task =>
    task.status != TaskStatus.completed && task.status != TaskStatus.failed)

/-- The `{task_id, command_type, status, priority, created_at}` record the
command POST endpoints return. -/
structure BackendResponse where
  task_id : String
  command_type : String
  status : TaskStatus
  priority : Nat
  created_at : String
deriving DecidableEq, Repr

/-- The observable outcome of one `executeCommand` call: the returned
`CommandResult` fields, whether any HTTP request was issued, the task list
afterwards, and the `scheduleTaskTimeout` registration. -/
structure ExecOutcome where
  success : Bool
  taskId : String
  error : Option String
  networkCalled : Bool
  tasks : List Task
  timeoutScheduled : Option (String × Nat)
deriving DecidableEq, Repr

def DEFAULT_TIMEOUT_MS : Nat := 30000

/-- The `executeCommand` method.  The `switch` over the command type routes
to one of the HTTP endpoints; the awaited response (or the thrown error) is
abstracted as `backend`.  The conflict check runs before any request. -/
def executeCommand (tasks : List Task) (hubId portId : String) (timeoutMs : Nat)
    (backend : Except String BackendResponse) : ExecOutcome :=
  match getActiveTaskForPort tasks portId with
  | some existingTask =>
    { success := false
      taskId := existingTask.task_id
      error := some "Command already in progress for this device"
      networkCalled := false
      tasks := tasks
      timeoutScheduled := none }
  | none =>
    match backend with
    | Except.error msg =>
      { success := false, taskId := "", error := some msg,
        networkCalled := true, tasks := tasks, timeoutScheduled := none }
    | Except.ok response =>
      { success := true
        taskId := response.task_id
        error := none
        networkCalled := true
        tasks := addTask
          { task_id := response.task_id
            command_type := response.command_type
            status := response.status
            priority := response.priority
            port_id := portId
            hub_id := hubId
            result := none
            error := none
            created_at := response.created_at
            started_at := none
            completed_at := none } tasks
        timeoutScheduled := some (response.task_id, timeoutMs) }

def timeoutError : String := "Command timeout - no response received"

/-- The `setTimeout` callback registered by `scheduleTaskTimeout`: when it
fires, the task is forced to `failed` with the timeout error only if it is
still `pending` or `running`. -/
def taskTimeoutFire (now : String) (taskId : String) (tasks : List Task) :
    List Task :=
  match tasks.find? (fun t => t.task_id == taskId) with
  | some t =>
    if t.status = TaskStatus.pending ∨ t.status = TaskStatus.running then
      updateTaskStatus now
        { task_id := taskId, status := TaskStatus.failed, result := none,
          error := some timeoutError } tasks
    else tasks
  | none => tasks

theorem applyTaskUpdate_task_id (now : String) (u : StatusUpdate) (t : Task) :
    (applyTaskUpdate now u t).task_id = t.task_id := rfl

theorem applyTaskUpdate_port_id (now : String) (u : StatusUpdate) (t : Task) :
    (applyTaskUpdate now u t).port_id = t.port_id := rfl

theorem applyTaskUpdate_idem (now now2 : String) (u : StatusUpdate) (t : Task) :
    applyTaskUpdate now2 u (applyTaskUpdate now u t) = applyTaskUpdate now u t := by
  unfold applyTaskUpdate
  cases t
  simp only [Task.mk.injEq, true_and, and_true]
  refine ⟨?_, ?_, ?_, ?_⟩
  · cases u.result <;> rfl
  · cases u.error <;> rfl
  · split_ifs <;> simp_all
  · split_ifs <;> simp_all


def cTask0 : Task :=
  { task_id := "t1", command_type := "restart", status := TaskStatus.pending,
    priority := 1, port_id := "p1", hub_id := "hub-a", result := none,
    error := none, created_at := "2026-02-03T00:00:00Z", started_at := none,
    completed_at := none }

def cUpdateRun : StatusUpdate :=
  { task_id := "t1", status := TaskStatus.running, result := none, error := none }

theorem updateTaskStatus_noMatch (now : String) (u : StatusUpdate)
    (tasks : List Task) (h : ∀ t ∈ tasks, t.task_id ≠ u.task_id) :
    updateTaskStatus now u tasks = tasks := by
  unfold updateTaskStatus
  conv_rhs => rw [← List.map_id tasks]
  refine List.map_congr_left ?_
  intro t ht
  simp [beq_iff_eq, h t ht]

theorem updateTaskStatus_get?_frame (now : String) (u : StatusUpdate)
    (tasks : List Task) (i : Nat) (t0 : Task) (h0 : tasks.get? i = some t0)
    (hne : t0.task_id ≠ u.task_id) :
    (updateTaskStatus now u tasks).get? i = some t0 := by
  unfold updateTaskStatus
  rw [List.get?_map, h0]
  simp [beq_iff_eq, hne]

theorem updateTaskStatus_idem (now now2 : String) (u : StatusUpdate)
    (tasks : List Task) :
    updateTaskStatus now2 u (updateTaskStatus now u tasks) =
      updateTaskStatus now u tasks := by
  unfold updateTaskStatus
  rw [List.map_map]
  refine List.map_congr_left ?_
  intro t _
  simp only [Function.comp_apply]
  by_cases hid : (t.task_id == u.task_id) = true
  · rw [if_pos hid]
    have hid2 : ((applyTaskUpdate now u t).task_id == u.task_id) = true := by
      rw [applyTaskUpdate_task_id]; exact hid
    rw [if_pos hid2, applyTaskUpdate_idem]
  · rw [if_neg hid, if_neg hid]

theorem find?_updateTaskStatus_some (now : String) (u : StatusUpdate)
    (tasks : List Task) (taskId : String) (t : Task)
    (hfind : tasks.find? (fun x => x.task_id == taskId) = some t) :
    (updateTaskStatus now u tasks).find? (fun x => x.task_id == taskId) =
      some (if t.task_id == u.task_id then applyTaskUpdate now u t else t) := by
  induction tasks with
  | nil => simp [List.find?] at hfind
  | cons t0 rest ih =>
    rw [updateTaskStatus, List.map_cons]
    rw [List.find?_cons] at hfind
    by_cases h0 : (t0.task_id == taskId) = true
    · simp only [h0] at hfind
      have ht : t0 = t := Option.some.inj hfind
      subst ht
      by_cases hu : (t0.task_id == u.task_id) = true
      · simp only [if_pos hu, List.find?_cons, applyTaskUpdate_task_id, h0]
      · simp only [if_neg hu, List.find?_cons, h0]
    · simp only [Bool.not_eq_true] at h0
      simp only [h0] at hfind
      by_cases hu : (t0.task_id == u.task_id) = true
      · simp only [if_pos hu, List.find?_cons, applyTaskUpdate_task_id, h0]
        exact ih hfind
      · simp only [if_neg hu, List.find?_cons, h0]
        exact ih hfind

/-- C9: `updateTaskStatus` modifies only the tasks whose `task_id` matches
the update — an update matching no tracked task leaves the list entirely
unchanged and non-matching positions keep their exact previous task;
`started_at` changes only on a first transition into `running` (and is then
stamped with the clock), `completed_at` only on a first transition into a
terminal status; and reapplying the same update (at any later clock) is the
identity, so the timestamps are stamped at most once. -/
theorem updateTaskStatus_frame_spec (now now2 : String) (u : StatusUpdate)
    (tasks : List Task) :
    ((∀ t ∈ tasks, t.task_id ≠ u.task_id) → updateTaskStatus now u tasks = tasks)
    ∧ (∀ i t0, tasks.get? i = some t0 → t0.task_id ≠ u.task_id →
        (updateTaskStatus now u tasks).get? i = some t0)
    ∧ (∀ t : Task, (applyTaskUpdate now u t).started_at ≠ t.started_at →
        u.status = TaskStatus.running ∧ t.started_at = none ∧
          (applyTaskUpdate now u t).started_at = some now)
    ∧ (∀ t : Task, (applyTaskUpdate now u t).completed_at ≠ t.completed_at →
        (u.status = TaskStatus.completed ∨ u.status = TaskStatus.failed) ∧
          t.completed_at = none ∧
          (applyTaskUpdate now u t).completed_at = some now)
    ∧ updateTaskStatus now2 u (updateTaskStatus now u tasks) =
        updateTaskStatus now u tasks := by
  refine ⟨updateTaskStatus_noMatch now u tasks, ?_, ?_, ?_,
    updateTaskStatus_idem now now2 u tasks⟩
  · intro i t0 h0 hne
    exact updateTaskStatus_get?_frame now u tasks i t0 h0 hne
  · intro t h
    by_cases hc : u.status = TaskStatus.running ∧ t.started_at = none
    · exact ⟨hc.1, hc.2, by simp [applyTaskUpdate, hc]⟩
    · exact absurd (by simp [applyTaskUpdate, hc]) h
  · intro t h
    by_cases hc : (u.status = TaskStatus.completed ∨ u.status = TaskStatus.failed) ∧
        t.completed_at = none
    · exact ⟨hc.1, hc.2, by simp [applyTaskUpdate, hc]⟩
    · exact absurd (by simp [applyTaskUpdate, hc]) h

theorem updateTaskStatus_frame_spec_witness :
    ((∀ t ∈ [cTask0], t.task_id ≠ cUpdateRun.task_id) →
      updateTaskStatus "T1" cUpdateRun [cTask0] = [cTask0])
    ∧ (∀ i t0, [cTask0].get? i = some t0 → t0.task_id ≠ cUpdateRun.task_id →
        (updateTaskStatus "T1" cUpdateRun [cTask0]).get? i = some t0)
    ∧ (∀ t : Task, (applyTaskUpdate "T1" cUpdateRun t).started_at ≠ t.started_at →
        cUpdateRun.status = TaskStatus.running ∧ t.started_at = none ∧
          (applyTaskUpdate "T1" cUpdateRun t).started_at = some "T1")
    ∧ (∀ t : Task,
        (applyTaskUpdate "T1" cUpdateRun t).completed_at ≠ t.completed_at →
        (cUpdateRun.status = TaskStatus.completed ∨
            cUpdateRun.status = TaskStatus.failed) ∧
          t.completed_at = none ∧
          (applyTaskUpdate "T1" cUpdateRun t).completed_at = some "T1")
    ∧ updateTaskStatus "T2" cUpdateRun (updateTaskStatus "T1" cUpdateRun [cTask0]) =
        updateTaskStatus "T1" cUpdateRun [cTask0] :=
  updateTaskStatus_frame_spec "T1" "T2" cUpdateRun [cTask0]

/-- C5: when a task for the same port is still `pending` or `running`,
`executeCommand` returns the conflict result naming the in-flight task,
issues no HTTP request, adds no task and schedules no timeout; conversely a
call that did reach the network had no in-flight task for that port. -/
theorem executeCommand_conflict (tasks : List Task) (hubId portId : String)
    (timeoutMs : Nat) (backend : Except String BackendResponse) (t : Task)
    (hactive : getActiveTaskForPort tasks portId = some t) :
    executeCommand tasks hubId portId timeoutMs backend =
      { success := false
        taskId := t.task_id
        error := some "Command already in progress for this device"
        networkCalled := false
        tasks := tasks
        timeoutScheduled := none }
    ∧ (∀ tasks2 : List Task,
        (executeCommand tasks2 hubId portId timeoutMs backend).networkCalled = true →
        getActiveTaskForPort tasks2 portId = none) := by
  constructor
  · unfold executeCommand
    rw [hactive]
  · intro tasks2 hnet
    cases hact2 : getActiveTaskForPort tasks2 portId with
    | none => rfl
    | some t2 =>
      unfold executeCommand at hnet
      rw [hact2] at hnet
      simp at hnet

theorem executeCommand_conflict_witness :
    executeCommand [cTask0] "hub-a" "p1" DEFAULT_TIMEOUT_MS
        (Except.error "unreachable") =
      { success := false
        taskId := cTask0.task_id
        error := some "Command already in progress for this device"
        networkCalled := false
        tasks := [cTask0]
        timeoutScheduled := none }
    ∧ (∀ tasks2 : List Task,
        (executeCommand tasks2 "hub-a" "p1" DEFAULT_TIMEOUT_MS
          (Except.error "unreachable")).networkCalled = true →
        getActiveTaskForPort tasks2 "p1" = none) :=
  executeCommand_conflict [cTask0] "hub-a" "p1" DEFAULT_TIMEOUT_MS
    (Except.error "unreachable") cTask0 (by decide)


theorem taskTimeoutFire_of_find_some (now taskId : String) (tasks : List Task)
    (t : Task) (hfind : tasks.find? (fun x => x.task_id == taskId) = some t) :
    taskTimeoutFire now taskId tasks =
      if t.status = TaskStatus.pending ∨ t.status = TaskStatus.running then
        updateTaskStatus now
          { task_id := taskId, status := TaskStatus.failed, result := none,
            error := some timeoutError } tasks
      else tasks := by
  unfold taskTimeoutFire
  rw [hfind]

/-- C6: when the timeout callback fires while its task is still `pending` or
`running`, every task with that `task_id` becomes `failed` with the
timeout-specific error and a stamped `completed_at`, every other position of
the task list is untouched, and (when no other task was in flight for the
port) `getActiveTaskForPort` frees the port; a task already `completed` or
`failed` when the callback fires is left entirely unchanged; and firing the
callback again is the identity, so the transition happens exactly once. -/
theorem taskTimeout_spec (nowA nowB : String) (taskId : String)
    (tasks : List Task) (t : Task)
    (hfind : tasks.find? (fun x => x.task_id == taskId) = some t) :
    ((t.status = TaskStatus.pending ∨ t.status = TaskStatus.running) →
      (∀ t2 ∈ taskTimeoutFire nowA taskId tasks, t2.task_id = taskId →
        t2.status = TaskStatus.failed ∧ t2.error = some timeoutError ∧
          t2.completed_at ≠ none)
      ∧ (∀ i t0, tasks.get? i = some t0 → t0.task_id ≠ taskId →
          (taskTimeoutFire nowA taskId tasks).get? i = some t0)
      ∧ ((∀ t2 ∈ tasks, t2.port_id = t.port_id → t2.task_id ≠ taskId →
            ¬(t2.status = TaskStatus.pending ∨ t2.status = TaskStatus.running)) →
          getActiveTaskForPort (taskTimeoutFire nowA taskId tasks) t.port_id = none))
    ∧ ((t.status = TaskStatus.completed ∨ t.status = TaskStatus.failed) →
        taskTimeoutFire nowA taskId tasks = tasks)
    ∧ taskTimeoutFire nowB taskId (taskTimeoutFire nowA taskId tasks) =
        taskTimeoutFire nowA taskId tasks := by
  have htid0 := List.find?_some hfind
  have htid : (t.task_id == taskId) = true := htid0
  refine ⟨?_, ?_, ?_⟩
  · intro hact
    have hfire := taskTimeoutFire_of_find_some nowA taskId tasks t hfind
    rw [if_pos hact] at hfire
    refine ⟨?_, ?_, ?_⟩
    · intro t2 ht2 hid2
      rw [hfire] at ht2
      unfold updateTaskStatus at ht2
      obtain ⟨t0, ht0, heq⟩ := List.mem_map.mp ht2
      by_cases h0 : (t0.task_id == taskId) = true
      · rw [if_pos h0] at heq
        subst heq
        refine ⟨rfl, rfl, ?_⟩
        by_cases hc : t0.completed_at = none <;>
          simp [applyTaskUpdate, hc]
      · rw [if_neg h0] at heq
        subst heq
        exact absurd (by simp [hid2] : (t0.task_id == taskId) = true) h0
    · intro i t0 h0 hne
      rw [hfire]
      exact updateTaskStatus_get?_frame nowA _ tasks i t0 h0 hne
    · intro huniq
      rw [hfire]
      unfold getActiveTaskForPort
      rw [List.find?_eq_none]
      intro x hx
      unfold updateTaskStatus at hx
      obtain ⟨t0, ht0, heq⟩ := List.mem_map.mp hx
      by_cases h0 : (t0.task_id == taskId) = true
      · rw [if_pos h0] at heq
        subst heq
        simp [applyTaskUpdate]
      · rw [if_neg h0] at heq
        subst heq
        intro hpred
        simp only [Bool.and_eq_true, Bool.or_eq_true, beq_iff_eq] at hpred
        exact huniq t0 ht0 hpred.1 (by simpa [beq_iff_eq] using h0)
          (by rcases hpred.2 with h | h
              · exact Or.inl h
              · exact Or.inr h)
  · intro hterm
    rw [taskTimeoutFire_of_find_some nowA taskId tasks t hfind, if_neg]
    rcases hterm with h | h <;> rw [h] <;> rintro (h2 | h2) <;> simp at h2
  · by_cases hact : t.status = TaskStatus.pending ∨ t.status = TaskStatus.running
    · have hfire := taskTimeoutFire_of_find_some nowA taskId tasks t hfind
      rw [if_pos hact] at hfire
      rw [hfire]
      have hfind2 : (updateTaskStatus nowA
          { task_id := taskId, status := TaskStatus.failed, result := none,
            error := some timeoutError } tasks).find?
            (fun x => x.task_id == taskId) =
          some (applyTaskUpdate nowA
            { task_id := taskId, status := TaskStatus.failed, result := none,
              error := some timeoutError } t) := by
        rw [find?_updateTaskStatus_some nowA _ tasks taskId t hfind, if_pos htid]
      rw [taskTimeoutFire_of_find_some nowB taskId _ _ hfind2, if_neg]
      simp [applyTaskUpdate]
    · rw [taskTimeoutFire_of_find_some nowA taskId tasks t hfind, if_neg hact,
        taskTimeoutFire_of_find_some nowB taskId tasks t hfind, if_neg hact]

theorem taskTimeout_spec_witness :
    ((cTask0.status = TaskStatus.pending ∨ cTask0.status = TaskStatus.running) →
      (∀ t2 ∈ taskTimeoutFire "T1" "t1" [cTask0], t2.task_id = "t1" →
        t2.status = TaskStatus.failed ∧ t2.error = some timeoutError ∧
          t2.completed_at ≠ none)
      ∧ (∀ i t0, [cTask0].get? i = some t0 → t0.task_id ≠ "t1" →
          (taskTimeoutFire "T1" "t1" [cTask0]).get? i = some t0)
      ∧ ((∀ t2 ∈ [cTask0], t2.port_id = cTask0.port_id → t2.task_id ≠ "t1" →
            ¬(t2.status = TaskStatus.pending ∨ t2.status = TaskStatus.running)) →
          getActiveTaskForPort (taskTimeoutFire "T1" "t1" [cTask0])
            cTask0.port_id = none))
    ∧ ((cTask0.status = TaskStatus.completed ∨ cTask0.status = TaskStatus.failed) →
        taskTimeoutFire "T1" "t1" [cTask0] = [cTask0])
    ∧ taskTimeoutFire "T2" "t1" (taskTimeoutFire "T1" "t1" [cTask0]) =
        taskTimeoutFire "T1" "t1" [cTask0] :=
  taskTimeout_spec "T1" "T2" "t1" [cTask0] cTask0 (by decide)


/-! ### Chart merge/separate view logic (`src/pages/LiveTelemetry.tsx`)

`onDragEnd` (shift-merge branch) and `handleSeparateChart` mutate only the
component's view state (`mergedCharts`, `chartOrder`) — in the source they
call only `setMergedCharts`/`setChartOrder` — while the per-device charts
(`deviceCharts`, derived from the telemetry store) are only read, so they
appear here as an untouched parameter. -/

structure MergedChartData where
  id : String
  sources : List DeviceChartData
deriving DecidableEq, Repr

/-- The tagged union of chart kinds (`isMerged` is the discriminant). -/
inductive ChartData
  | device (d : DeviceChartData)
  | merged (m : MergedChartData)
deriving DecidableEq, Repr

structure LiveViewState where
  mergedCharts : List (String × MergedChartData)
  chartOrder : List String
deriving DecidableEq, Repr

def deviceKeyOfChart (d : DeviceChartData) : String := d.hubId ++ ":" ++ d.portId

/-- Whether a device key occurs among any merged chart's sources (the filter
that hides a device's individual chart while it is merged). -/
def inMergedSources (mergedCharts : List (String × MergedChartData))
    (key : String) : Bool :=
  mergedCharts.any (fun km => km.2.sources.any (fun s => deviceKeyOfChart s == key))

/-- The `allCharts` map: individual device charts not absorbed into a merged
chart, then the merged charts, built with `Map.set` semantics. -/
def allCharts (deviceCharts : List (String × DeviceChartData))
    (mergedCharts : List (String × MergedChartData)) : List (String × ChartData) :=
  let m1 := (deviceCharts.filter
      (fun kd => !(inMergedSources mergedCharts kd.1))).foldl
    (fun acc kd => assocSet kd.1 (ChartData.device kd.2) acc) []
  mergedCharts.foldl (fun acc km => assocSet km.1 (ChartData.merged km.2) acc) m1

/-- Model of the JS native `Array.prototype.indexOf` (`-1` when absent). -/
def jsIndexOfAux (x : String) (i : Nat) : List String → Int
  | [] => -1
  | y :: rest => if y == x then (i : Int) else jsIndexOfAux x (i + 1) rest

def jsIndexOf (l : List String) (x : String) : Int := jsIndexOfAux x 0 l

/-- Model of `arr.splice(idx, 1)` (a negative index counts from the end,
clamped at 0). -/
def jsSpliceRemoveOne (l : List String) (idx : Int) : List String :=
  let j : Nat := if idx < 0 then (max (l.length + idx) 0).toNat else idx.toNat
  l.take j ++ l.drop (j + 1)

/-- Model of `arr.splice(idx, 0, ...items)`. -/
def jsSpliceInsert (l : List String) (idx : Int) (items : List String) :
    List String :=
  let j : Nat := if idx < 0 then (max (l.length + idx) 0).toNat
    else min idx.toNat l.length
  l.take j ++ items ++ l.drop j

/-- The `onDragEnd` handler.  `hasDestination` models `result.destination`
being present and `mergedId` the fresh `merged-` timestamped id.  With Shift
held and both looked-up charts present the two charts fuse into a new merged
chart (dissolving their previous merged groups) that replaces the
destination slot while the source slot is removed; otherwise the drag is a
plain reorder.  (An out-of-range source index in the reorder branch, which
the drag-and-drop library never produces, is modelled as a no-op.) -/
def onDragEnd (deviceCharts : List (String × DeviceChartData)) (v : LiveViewState)
    (shiftPressed hasDestination : Bool) (sourceIndex destIndex : Nat)
    (mergedId : String) : LiveViewState :=
  if !hasDestination then v
  else if sourceIndex == destIndex then v
  else
    let charts := allCharts deviceCharts v.mergedCharts
    let mergePair :=
      if shiftPressed then
        match (v.chartOrder.get? sourceIndex).bind (fun k => assocLookup charts k),
            (v.chartOrder.get? destIndex).bind (fun k => assocLookup charts k) with
        | some sourceChart, some destChart => some (sourceChart, destChart)
        | _, _ => none
      else none
    match mergePair with
    | some (sourceChart, destChart) =>
      let sourceSources := match sourceChart with
        | ChartData.merged m => m.sources
        | ChartData.device d => [d]
      let destSources := match destChart with
        | ChartData.merged m => m.sources
        | ChartData.device d => [d]
      let newMerged : MergedChartData := ⟨mergedId, destSources ++ sourceSources⟩
      let m1 := match sourceChart with
        | ChartData.merged m => assocErase m.id v.mergedCharts
        | ChartData.device _ => v.mergedCharts
      let m2 := match destChart with
        | ChartData.merged m => assocErase m.id m1
        | ChartData.device _ => m1
      let m3 := assocSet mergedId newMerged m2
      let orderRemoved :=
        v.chartOrder.take sourceIndex ++ v.chartOrder.drop (sourceIndex + 1)
      let adjustedDestIndex :=
        if sourceIndex < destIndex then destIndex - 1 else destIndex
      ⟨m3, orderRemoved.set adjustedDestIndex mergedId⟩
    | none =>
      match v.chartOrder.get? sourceIndex with
      | some reorderedItem =>
        ⟨v.mergedCharts,
          jsSpliceInsert (jsSpliceRemoveOne v.chartOrder (sourceIndex : Int))
            (destIndex : Int) [reorderedItem]⟩
      | none => v

/-- The `handleSeparateChart` handler: drop the merged chart and splice its
sources' individual keys back in at its position. -/
def handleSeparateChart (v : LiveViewState) (chartId : String) : LiveViewState :=
  match assocLookup v.mergedCharts chartId with
  | none => v
  | some chart =>
    let newMergedCharts := assocErase chartId v.mergedCharts
    let chartIndex := jsIndexOf v.chartOrder chartId
    let newOrder := jsSpliceRemoveOne v.chartOrder chartIndex
    let individualKeys := chart.sources.map deviceKeyOfChart
    ⟨newMergedCharts, jsSpliceInsert newOrder chartIndex individualKeys⟩


theorem set_eq_parts (l : List String) (i : Nat) (x : String)
    (hi : i < l.length) :
    l.set i x = l.take i ++ x :: l.drop (i + 1) := by
  induction l generalizing i with
  | nil => simp at hi
  | cons a as ih =>
    cases i with
    | zero => simp
    | succ n =>
      simp only [List.set_cons_succ, List.take_succ_cons, List.drop_succ_cons,
        List.cons_append]
      rw [ih n (by simpa using hi)]

theorem jsIndexOfAux_append (x : String) (P Q : List String) (hx : x ∉ P)
    (j : Nat) : jsIndexOfAux x j (P ++ x :: Q) = ((j + P.length : Nat) : Int) := by
  induction P generalizing j with
  | nil => simp [jsIndexOfAux]
  | cons a as ih =>
    have ha : (a == x) = false := by
      simp only [beq_eq_false_iff_ne]
      intro h
      exact hx (by simp [h])
    have ih2 := ih (fun h => hx (List.mem_cons_of_mem a h)) (j + 1)
    simp only [List.cons_append, jsIndexOfAux, ha, Bool.false_eq_true, if_false,
      List.append_eq] at ih2 ⊢
    rw [ih2]
    simp only [List.length_cons]
    omega

theorem jsSpliceRemoveOne_at (P Q : List String) (y : String) :
    jsSpliceRemoveOne (P ++ y :: Q) ((P.length : Nat) : Int) = P ++ Q := by
  unfold jsSpliceRemoveOne
  have hneg : ¬ (((P.length : Nat) : Int) < 0) := by omega
  simp only [hneg, if_false, Int.toNat_natCast]
  have h1 : (P ++ y :: Q).take P.length = P := List.take_left P (y :: Q)
  have h2 : (P ++ y :: Q).drop (P.length + 1) = Q := by
    have hsplit : P ++ y :: Q = (P ++ [y]) ++ Q := by simp
    rw [hsplit, show P.length + 1 = (P ++ [y]).length by simp]
    exact List.drop_left (P ++ [y]) Q
  rw [h1, h2]

theorem jsSpliceInsert_at (P Q items : List String) :
    jsSpliceInsert (P ++ Q) ((P.length : Nat) : Int) items = P ++ items ++ Q := by
  unfold jsSpliceInsert
  have hneg : ¬ (((P.length : Nat) : Int) < 0) := by omega
  have hmin : min P.length (P ++ Q).length = P.length := by
    simp [Nat.min_eq_left]
  simp only [hneg, if_false, Int.toNat_natCast, hmin]
  rw [List.take_left P Q, List.drop_left P Q]

theorem handleSeparateChart_of_lookup (v : LiveViewState) (chartId : String)
    (chart : MergedChartData)
    (hl : assocLookup v.mergedCharts chartId = some chart) :
    handleSeparateChart v chartId =
      ⟨assocErase chartId v.mergedCharts,
        jsSpliceInsert
          (jsSpliceRemoveOne v.chartOrder (jsIndexOf v.chartOrder chartId))
          (jsIndexOf v.chartOrder chartId)
          (chart.sources.map deviceKeyOfChart)⟩ := by
  unfold handleSeparateChart
  rw [hl]

/-- C7: merging device charts A and B (shift-drop of A onto B) and then
separating the merged chart restores the previous view state: the merged
map is back to what it was, so A's and B's independent charts — looked up
from the same untouched store-derived `deviceCharts` — are visible again
with their field series unchanged, and both keys are back in the chart
order; the merge itself holds exactly B's and A's chart data and never
writes the per-device state. -/
theorem merge_separate_roundtrip (deviceCharts : List (String × DeviceChartData))
    (v : LiveViewState) (sourceIndex destIndex : Nat)
    (mergedId keyA keyB : String) (A B : DeviceChartData)
    (h1 : v.chartOrder.get? sourceIndex = some keyA)
    (h2 : v.chartOrder.get? destIndex = some keyB)
    (h3 : sourceIndex ≠ destIndex)
    (h4 : assocLookup (allCharts deviceCharts v.mergedCharts) keyA =
      some (ChartData.device A))
    (h5 : assocLookup (allCharts deviceCharts v.mergedCharts) keyB =
      some (ChartData.device B))
    (h6 : assocLookup v.mergedCharts mergedId = none)
    (h7 : mergedId ∉ v.chartOrder)
    (h8 : deviceKeyOfChart A = keyA)
    (h9 : deviceKeyOfChart B = keyB) :
    (handleSeparateChart
        (onDragEnd deviceCharts v true true sourceIndex destIndex mergedId)
        mergedId).mergedCharts = v.mergedCharts
    ∧ assocLookup (allCharts deviceCharts
        (handleSeparateChart
          (onDragEnd deviceCharts v true true sourceIndex destIndex mergedId)
          mergedId).mergedCharts) keyA = some (ChartData.device A)
    ∧ assocLookup (allCharts deviceCharts
        (handleSeparateChart
          (onDragEnd deviceCharts v true true sourceIndex destIndex mergedId)
          mergedId).mergedCharts) keyB = some (ChartData.device B)
    ∧ keyA ∈ (handleSeparateChart
        (onDragEnd deviceCharts v true true sourceIndex destIndex mergedId)
        mergedId).chartOrder
    ∧ keyB ∈ (handleSeparateChart
        (onDragEnd deviceCharts v true true sourceIndex destIndex mergedId)
        mergedId).chartOrder
    ∧ assocLookup (onDragEnd deviceCharts v true true sourceIndex destIndex
        mergedId).mergedCharts mergedId = some ⟨mergedId, [B, A]⟩ := by
  have hsl : sourceIndex < v.chartOrder.length := by
    by_contra hge
    rw [List.get?_eq_none.mpr (by omega)] at h1
    exact Option.noConfusion h1
  have hdl : destIndex < v.chartOrder.length := by
    by_contra hge
    rw [List.get?_eq_none.mpr (by omega)] at h2
    exact Option.noConfusion h2
  have hbeq : (sourceIndex == destIndex) = false := by
    simp [h3]
  have hmerge : onDragEnd deviceCharts v true true sourceIndex destIndex mergedId =
      ⟨assocSet mergedId ⟨mergedId, [B, A]⟩ v.mergedCharts,
        (v.chartOrder.take sourceIndex ++ v.chartOrder.drop (sourceIndex + 1)).set
          (if sourceIndex < destIndex then destIndex - 1 else destIndex)
          mergedId⟩ := by
    simp only [onDragEnd, Bool.not_true, Bool.false_eq_true, if_false, hbeq,
      if_true, h1, h2, Option.some_bind, h4, h5, List.singleton_append]
  have hORlen :
      (v.chartOrder.take sourceIndex ++
        v.chartOrder.drop (sourceIndex + 1)).length =
      v.chartOrder.length - 1 := by
    simp only [List.length_append, List.length_take, List.length_drop]
    omega
  have hadj : (if sourceIndex < destIndex then destIndex - 1 else destIndex) <
      (v.chartOrder.take sourceIndex ++
        v.chartOrder.drop (sourceIndex + 1)).length := by
    rw [hORlen]
    by_cases hsd : sourceIndex < destIndex <;>
      simp only [hsd, if_true, if_false] <;> omega
  have hnm : mergedId ∉
      (v.chartOrder.take sourceIndex ++ v.chartOrder.drop (sourceIndex + 1)) := by
    intro hmem
    rcases List.mem_append.mp hmem with hmem | hmem
    · exact h7 (List.take_subset _ _ hmem)
    · exact h7 (List.drop_subset _ _ hmem)
  have hset := set_eq_parts
    (v.chartOrder.take sourceIndex ++ v.chartOrder.drop (sourceIndex + 1))
    (if sourceIndex < destIndex then destIndex - 1 else destIndex) mergedId hadj
  have hPn : mergedId ∉
      (v.chartOrder.take sourceIndex ++ v.chartOrder.drop (sourceIndex + 1)).take
        (if sourceIndex < destIndex then destIndex - 1 else destIndex) :=
    fun h => hnm (List.take_subset _ _ h)
  have hidx : jsIndexOf
      ((v.chartOrder.take sourceIndex ++ v.chartOrder.drop (sourceIndex + 1)).set
        (if sourceIndex < destIndex then destIndex - 1 else destIndex) mergedId)
      mergedId =
      (((v.chartOrder.take sourceIndex ++
        v.chartOrder.drop (sourceIndex + 1)).take
          (if sourceIndex < destIndex then destIndex - 1 else destIndex)).length
        : Int) := by
    rw [hset, jsIndexOf, jsIndexOfAux_append mergedId _ _ hPn 0]
    simp
  have hsep0 := handleSeparateChart_of_lookup
    ⟨assocSet mergedId ⟨mergedId, [B, A]⟩ v.mergedCharts,
      (v.chartOrder.take sourceIndex ++ v.chartOrder.drop (sourceIndex + 1)).set
        (if sourceIndex < destIndex then destIndex - 1 else destIndex) mergedId⟩
    mergedId ⟨mergedId, [B, A]⟩
    (assocLookup_set mergedId _ v.mergedCharts)
  simp only [List.map_cons, List.map_nil] at hsep0
  rw [hidx, hset, jsSpliceRemoveOne_at, jsSpliceInsert_at,
    assocErase_set mergedId _ v.mergedCharts h6] at hsep0
  rw [hmerge, hset, hsep0]
  refine ⟨rfl, h4, h5, ?_, ?_, assocLookup_set mergedId _ v.mergedCharts⟩
  · simp [h8]
  · simp [h9]

def cChartA : DeviceChartData :=
  ⟨"a:1", "a", "1", "Temp Sensor", [⟨"temp", "C", "#36A2EB", [⟨0, 5⟩]⟩]⟩

def cChartB : DeviceChartData :=
  ⟨"b:2", "b", "2", "Temp Sensor", [⟨"temp", "C", "#FF6384", [⟨0, 7⟩]⟩]⟩

def cDeviceCharts : List (String × DeviceChartData) :=
  [("a:1", cChartA), ("b:2", cChartB)]

def cView : LiveViewState := ⟨[], ["a:1", "b:2"]⟩

theorem merge_separate_roundtrip_witness :
    (handleSeparateChart
        (onDragEnd cDeviceCharts cView true true 0 1 "merged-1")
        "merged-1").mergedCharts = cView.mergedCharts
    ∧ assocLookup (allCharts cDeviceCharts
        (handleSeparateChart
          (onDragEnd cDeviceCharts cView true true 0 1 "merged-1")
          "merged-1").mergedCharts) "a:1" = some (ChartData.device cChartA)
    ∧ assocLookup (allCharts cDeviceCharts
        (handleSeparateChart
          (onDragEnd cDeviceCharts cView true true 0 1 "merged-1")
          "merged-1").mergedCharts) "b:2" = some (ChartData.device cChartB)
    ∧ "a:1" ∈ (handleSeparateChart
        (onDragEnd cDeviceCharts cView true true 0 1 "merged-1")
        "merged-1").chartOrder
    ∧ "b:2" ∈ (handleSeparateChart
        (onDragEnd cDeviceCharts cView true true 0 1 "merged-1")
        "merged-1").chartOrder
    ∧ assocLookup (onDragEnd cDeviceCharts cView true true 0 1
        "merged-1").mergedCharts "merged-1" =
        some ⟨"merged-1", [cChartB, cChartA]⟩ :=
  merge_separate_roundtrip cDeviceCharts cView 0 1 "merged-1" "a:1" "b:2"
    cChartA cChartB rfl rfl (by decide) rfl rfl rfl (by decide) rfl rfl

end WebClient
